import Mathlib

/-!
# datastore-model: key resolution and the entity lifecycle

A shallow embedding of the Go package `db` (files `key_resolver.go`,
`datastore.go` and `querier.go`).

* A pointer to a Go struct seen through `reflect` is an `entity`: its type
  name, its fields in declaration order (name, type name, `reflect.Kind`, the
  `db` struct tag, the value) and the state of the embedded `db.Model` (key
  and parent key).
* A `*datastore.Key` is an `Option Key` (`none` is the nil pointer).
* A method with a pointer receiver that mutates it returns the new receiver;
  a method that mutates the entity returns the new entity.
* Go's `error` is `Option Error` (`none` is `nil`).
* The records a slice holds are pointers into a `Heap`; a function that may
  panic returns an `Option` (`none` is the panic).
-/

set_option autoImplicit false

namespace db

/-! ## Keys (`appengine/datastore`) -/

/-- A datastore key: kind, string id, integer id and the parent key. A key
whose parent pointer is nil is a `root`; the application id and namespace,
which `datastore.NewKey` copies from the context, are the same for every key
built under one context and are left out. -/
inductive Key where
  | root (kind : String) (stringID : String) (intID : Int)
  | child (kind : String) (stringID : String) (intID : Int) (parent : Key)
  deriving DecidableEq

namespace Key

/-- The method `(*Key).Kind`. -/
def Kind : Key → String
  | root k _ _ => k
  | child k _ _ _ => k

/-- The method `(*Key).StringID`. -/
def StringID : Key → String
  | root _ s _ => s
  | child _ s _ _ => s

/-- The method `(*Key).IntID`. -/
def IntID : Key → Int
  | root _ _ i => i
  | child _ _ i _ => i

/-- The method `(*Key).Parent`; `none` is the nil pointer. -/
def Parent : Key → Option Key
  | root _ _ _ => none
  | child _ _ _ p => some p

/-- The method `(*Key).Incomplete`: neither a string id nor an integer id. -/
def Incomplete (k : Key) : Bool :=
  k.StringID == "" && k.IntID == 0

end Key

/-- The function `datastore.NewKey(c, kind, stringID, intID, parent)`. -/
def datastore.NewKey (kind stringID : String) (intID : Int) :
    Option Key → Key
  | none => Key.root kind stringID intID
  | some p => Key.child kind stringID intID p

/-! ## Reflection (`reflect`) -/

/-- The enumeration `reflect.Kind`. -/
inductive reflect.Kind where
  | Invalid | Bool
  | Int | Int8 | Int16 | Int32 | Int64
  | Uint | Uint8 | Uint16 | Uint32 | Uint64 | Uintptr
  | Float32 | Float64 | Complex64 | Complex128
  | Array | Chan | Func | Interface | Map | Ptr | Slice
  | String | Struct | UnsafePointer
  deriving DecidableEq

/-- The value held by a struct field: a string, a signed integer, an unsigned
integer, or a value of any other type (kept as an uninterpreted encoding). -/
inductive Value where
  | str (s : String)
  | int (i : Int)
  | uint (n : Nat)
  | other (enc : String)
  deriving DecidableEq

/-- The method `reflect.Value.String`, called by the source on fields of kind
`String` only. -/
def Value.String : Value → String
  | .str s => s
  | _ => ""

/-- The method `reflect.Value.Int`, called by the source on fields of the
kinds `Int` to `Int64` only (on the others Go does not return). -/
def Value.Int : Value → Int
  | .int i => i
  | _ => 0

/-- One field of a struct as `reflect` shows it: `StructField.Name`,
`StructField.Type.Name()`, `StructField.Type.Kind()`,
`StructField.Tag.Get("db")` (empty when the tag has no `db` entry) and the
field of `reflect.ValueOf(e).Elem()` at the same index. -/
structure Field where
  name : String
  typeName : String
  kind : reflect.Kind
  tag : String
  value : Value
  deriving DecidableEq

/-- The kind and the value of a field agree, as Go's type system ensures. -/
def Field.wellTyped (f : Field) : Bool :=
  match f.kind, f.value with
  | .String, .str _ => true
  | .Int, .int _ | .Int8, .int _ | .Int16, .int _ | .Int32, .int _
  | .Int64, .int _ => true
  | .Uint, .uint _ | .Uint8, .uint _ | .Uint16, .uint _ | .Uint32, .uint _
  | .Uint64, .uint _ | .Uintptr, .uint _ => true
  | .String, _ | .Int, _ | .Int8, _ | .Int16, _ | .Int32, _ | .Int64, _ => false
  | .Uint, _ | .Uint8, _ | .Uint16, _ | .Uint32, _ | .Uint64, _
  | .Uintptr, _ => false
  | _, .other _ => true
  | _, _ => false

/-! ## Entities -/

/-- Modelled from the spec: the struct `Model` and its methods are not among
the sources; the spec gives the record the capabilities `HasKey`, `Key`,
`SetKey`, `Parent`, `SetParent` over a key and a parent key, with no key until
one is set. An `entity` is a pointer to a struct embedding `Model`:
`typeName` is `reflect.TypeOf(e).Elem().Name()`, `fields` are the struct
fields in declaration order (the embedded `Model` slot among them), `key` and
`parentKey` are the state of the embedded `Model`. -/
structure entity where
  typeName : String
  fields : List Field
  key : Option Key
  parentKey : Option Key
  deriving DecidableEq

/-- Modelled from the spec: `HasKey` of the absent `Model`, true once a key
is set. -/
def entity.HasKey (e : entity) : Bool := e.key.isSome

/-- Modelled from the spec: `Key` of the absent `Model`. -/
def entity.Key (e : entity) : Option db.Key := e.key

/-- Modelled from the spec: `SetKey` of the absent `Model`. -/
def entity.SetKey (e : entity) (k : Option db.Key) : entity := { e with key := k }

/-- Modelled from the spec: `Parent` of the absent `Model`. -/
def entity.Parent (e : entity) : Option db.Key := e.parentKey

/-- Modelled from the spec: `SetParent` of the absent `Model`. -/
def entity.SetParent (e : entity) (k : Option db.Key) : entity :=
  { e with parentKey := k }

/-! ## Errors -/

/-- The error values of the package and of the storage backend. -/
inductive Error where
  | ErrNoSuchEntity
  | ErrEntityExists
  | ErrMissingStringId
  | ErrMissingIntId
  | ErrMissingParentKey
  /-- The value `datastore.ErrNoSuchEntity` of the backend. -/
  | datastore_ErrNoSuchEntity
  /-- The value `datastore.ErrInvalidKey` of the backend. -/
  | datastore_ErrInvalidKey
  /-- Any other error of the backend. -/
  | backend (msg : String)
  deriving DecidableEq

/-! ## Strings (`strings`, `unicode`) -/

/-- The function `unicode.IsSpace`. -/
def unicode.IsSpace (c : Char) : Bool :=
  let n := c.toNat
  (9 ≤ n && n ≤ 13) || n == 0x20 || n == 0x85 || n == 0xA0 || n == 0x1680 ||
  (0x2000 ≤ n && n ≤ 0x200A) || n == 0x2028 || n == 0x2029 || n == 0x202F ||
  n == 0x205F || n == 0x3000

/-- Splitting a list of characters at every occurrence of `sep`. -/
def strings.splitChars (sep : Char) : List Char → List (List Char)
  | [] => [[]]
  | c :: cs =>
    if c = sep then [] :: splitChars sep cs
    else
      match splitChars sep cs with
      | [] => [[c]]
      | w :: ws => (c :: w) :: ws

/-- The function `strings.Split(s, sep)` for a separator of one character
(the source only splits at a comma). -/
def strings.Split (s : String) (sep : Char) : List String :=
  (strings.splitChars sep s.data).map String.mk

/-- The function `strings.TrimSpace`. -/
def strings.TrimSpace (s : String) : String :=
  String.mk ((s.data.dropWhile unicode.IsSpace).reverse.dropWhile
    unicode.IsSpace).reverse

/-! ## The key resolver (`key_resolver.go`) -/

/-- The struct `KeyResolver` (its context apart). -/
structure KeyResolver where
  Kind : String
  StringID : String
  IntID : Int
  HasParent : Bool
  Parent : Option Key
  deriving DecidableEq

/-- The function `NewKeyResolver`: every field at its zero value. -/
def NewKeyResolver : KeyResolver :=
  { Kind := "", StringID := "", IntID := 0, HasParent := false, Parent := none }

/-- The method `KeyResolver.IsAutoGenerated`. -/
def KeyResolver.IsAutoGenerated (this : KeyResolver) : Bool :=
  this.IntID == 0 && this.StringID == ""

/-- The loop of `ExtractKindMetadata` over the fields still to visit. -/
def KeyResolver.ExtractKindMetadata.loop (e : entity) :
    List Field → KeyResolver → Option Error × KeyResolver
  | [], this => (none, this)
  | field :: rest, this =>
    if field.typeName == "Model" then
      let kindMetadata := field.tag
      if kindMetadata != "" then
        let values := strings.Split kindMetadata ','
        let this1 :=
          if strings.TrimSpace (values.getD 0 "") != "" then
            { this with Kind := values.getD 0 "" }
          else this
        if values.length > 1 then
          let this2 :=
            { this1 with
              HasParent := strings.TrimSpace (values.getD 1 "") == "hasparent" }
          if this2.HasParent && e.Parent == none then
            (some Error.ErrMissingParentKey, this2)
          else (none, this2)
        else (none, this1)
      else loop e rest this
    else loop e rest this

/-- The method `KeyResolver.ExtractKindMetadata`. -/
def KeyResolver.ExtractKindMetadata (this : KeyResolver) (e : entity) :
    Option Error × KeyResolver :=
  KeyResolver.ExtractKindMetadata.loop e e.fields { this with Kind := e.typeName }

/-- The loop of `ExtractKeyMetadata` over the fields still to visit. -/
def KeyResolver.ExtractKeyMetadata.loop :
    List Field → KeyResolver → Option Error × KeyResolver
  | [], this => (none, this)
  | field :: rest, this =>
    if field.tag == "id" then
      match field.kind with
      | .String =>
        let v := field.value.String
        if v == "" then (some Error.ErrMissingStringId, this)
        else (none, { this with StringID := v, IntID := 0 })
      | .Int | .Int8 | .Int16 | .Int32 | .Int64 =>
        let v := field.value.Int
        if v == 0 then (some Error.ErrMissingIntId, this)
        else (none, { this with StringID := "", IntID := v })
      | _ => loop rest this
    else loop rest this

/-- The method `KeyResolver.ExtractKeyMetadata`. -/
def KeyResolver.ExtractKeyMetadata (this : KeyResolver) (e : entity) :
    Option Error × KeyResolver :=
  KeyResolver.ExtractKeyMetadata.loop e.fields { this with Parent := e.Parent }

/-- The method `KeyResolver.ExtractMetadataFrom`. -/
def KeyResolver.ExtractMetadataFrom (this : KeyResolver) (e : entity) :
    Option Error × KeyResolver :=
  match this.ExtractKindMetadata e with
  | (some err, this1) => (some err, this1)
  | (none, this1) =>
    match this1.ExtractKeyMetadata e with
    | (some err, this2) => (some err, this2)
    | (none, this2) => (none, this2)

/-- The method `KeyResolver.Resolve`: the error, the resolver afterwards and
the entity afterwards. `e.HasKey()` is `e.Key() != nil`, so the read-back
branch is the one where `e.Key()` is some key. -/
def KeyResolver.Resolve (this : KeyResolver) (e : entity) :
    Option Error × KeyResolver × entity :=
  match e.Key with
  | some k =>
    (none,
     { Parent := k.Parent, HasParent := k.Parent != none, IntID := k.IntID,
       StringID := k.StringID, Kind := k.Kind },
     e)
  | none =>
    match this.ExtractMetadataFrom e with
    | (some err, this1) => (some err, this1, e)
    | (none, this1) =>
      (none, this1,
       e.SetKey (some (datastore.NewKey this1.Kind this1.StringID this1.IntID
         this1.Parent)))

/-! ## The storage backend (`appengine/datastore`) -/

/-- The storage collaborator the mediator talks to, over a state `σ`:
`datastore.Get(c, key, e)` (the error and the entity afterwards),
`datastore.Put(c, key, e)` (the returned key, the error, the state
afterwards) and `datastore.Delete(c, key)`. -/
structure Backend (σ : Type) where
  Get : σ → Option Key → entity → Option Error × entity
  Put : σ → Option Key → entity → Option Key × Option Error × σ
  Delete : σ → Option Key → Option Error × σ

/-! ## The mediator (`datastore.go`) -/

/-- The loop of `Datastore.extractIDs` over the fields still to visit. -/
def Datastore.extractIDs.loop : List Field → String × Int
  | [] => ("", 0)
  | field :: rest =>
    if field.tag == "id" then
      match field.kind with
      | .String => (field.value.String, 0)
      | .Int | .Int8 | .Int16 | .Int32 | .Int64 => ("", field.value.Int)
      | _ => loop rest
    else loop rest

/-- The method `Datastore.extractIDs`. -/
def Datastore.extractIDs (e : entity) : String × Int :=
  Datastore.extractIDs.loop e.fields

/-- The method `Datastore.NewKeyFor`. -/
def Datastore.NewKeyFor (e : entity) : Key :=
  let kind := e.typeName
  let ids := Datastore.extractIDs e
  let parentKey := e.Parent
  datastore.NewKey kind ids.1 ids.2 parentKey

/-- The method `Datastore.Load`: the error and the entity afterwards. -/
def Datastore.Load {σ : Type} (b : Backend σ) (s : σ) (e : entity) :
    Option Error × entity :=
  let e1 := if !e.HasKey then e.SetKey (some (Datastore.NewKeyFor e)) else e
  match b.Get s e1.Key e1 with
  | (err, e2) =>
    if err = some Error.datastore_ErrNoSuchEntity then
      (some Error.ErrNoSuchEntity, e2)
    else (err, e2)

/-- The method `Datastore.Create`: the error, the entity afterwards and the
backend state afterwards. -/
def Datastore.Create {σ : Type} (b : Backend σ) (s : σ) (e : entity) :
    Option Error × entity × σ :=
  match Datastore.Load b s e with
  | (none, e1) => (some Error.ErrEntityExists, e1, s)
  | (some _, e1) =>
    match b.Put s (some (Datastore.NewKeyFor e1)) e1 with
    | (key, err, s1) => (err, e1.SetKey key, s1)

/-- The method `Datastore.Update`. -/
def Datastore.Update {σ : Type} (b : Backend σ) (s : σ) (e : entity) :
    Option Error × entity × σ :=
  match Datastore.Load b s e with
  | (some err, e1) => (some err, e1, s)
  | (none, e1) =>
    match b.Put s e1.Key e1 with
    | (_, err, s1) => (err, e1, s1)

/-- The method `Datastore.Delete`. -/
def Datastore.Delete {σ : Type} (b : Backend σ) (s : σ) (e : entity) :
    Option Error × entity × σ :=
  match Datastore.Load b s e with
  | (some err, e1) => (some err, e1, s)
  | (none, e1) =>
    let e2 := if !e1.HasKey then e1.SetKey (some (Datastore.NewKeyFor e1)) else e1
    match b.Delete s e2.Key with
    | (err, s1) => (err, e2, s1)

/-! ## The query result binder (`querier.go`) -/

/-- A pointer to a struct that embeds `Model`; the slices the binder works on
hold such pointers. -/
abbrev Ref := Nat

/-- The memory: the struct every pointer refers to. -/
abbrev Heap := Ref → entity

/-- Writing a struct through a pointer. -/
def Heap.set (h : Heap) (r : Ref) (e : entity) : Heap :=
  fun r1 => if r1 = r then e else h r1

/-- The argument `slice interface{}` as `reflect.ValueOf` shows it: a slice
(of pointers to records), a pointer to such a slice (with the slice it points
to), or a value of any other kind. -/
inductive Collection where
  | slice (elems : List Ref)
  | slicePtr (elems : List Ref)
  | other

/-- The function `EntityAt`: the pointer at position `i`; `none` when Go does
not return (the panic at the end of the function, or the panic of
`Value.Index` on an index out of range). -/
def EntityAt : Collection → Int → Option Ref
  | .slice s, i => if 0 ≤ i then s[i.toNat]? else none
  | .slicePtr s, i => if 0 ≤ i then s[i.toNat]? else none
  | .other, _ => none

/-- Modelled from the spec: the type `Query` of the field `Querier.q` is not
among the sources; the spec gives the bulk fetch as
`GetAll(query, collection_out) -> (keys, error)`, which populates the
collection and returns the keys in order. The result holds the keys, the
error, and the collection and the memory after the call. -/
structure Query where
  GetAll : Collection → Heap → List Key × Option Error × Collection × Heap

/-- The struct `Querier` (its context apart). -/
structure Querier where
  q : Query

/-- The loop `for i, key := range keys` of `All`, from index `i` on; `none`
when `EntityAt` does not return. -/
def Querier.All.loop (slice : Collection) : Nat → List Key → Heap → Option Heap
  | _, [], h => some h
  | i, key :: keys, h =>
    match EntityAt slice (i : Int) with
    | none => none
    | some r =>
      loop slice (i + 1) keys (h.set r ((h r).SetKey (some key)))

/-- The method `Querier.All`: the error, the collection and the memory after
the call; `none` when Go does not return. -/
def Querier.All (this : Querier) (slice : Collection) (h : Heap) :
    Option (Option Error × Collection × Heap) :=
  match this.q.GetAll slice h with
  | (_, some err, slice1, h1) => some (some err, slice1, h1)
  | (keys, none, slice1, h1) =>
    match Querier.All.loop slice1 0 keys h1 with
    | none => none
    | some h2 => some (none, slice1, h2)

/-! ## A storage backend in memory -/

/-- The properties stored for an entity: the values of its fields by name. -/
abbrev PropertyList := List (String × Value)

/-- The state of the in-memory backend: the stored entities by key; the
first entry for a key is the one the key addresses. -/
abbrev Store := List (Key × PropertyList)

/-- The entity stored under a key, if any. -/
def Store.find (s : Store) (k : Key) : Option PropertyList :=
  List.lookup k s

/-- The store without any entity under `k`. -/
def Store.erase (s : Store) (k : Key) : Store :=
  s.filter fun x => x.1 != k

/-- The properties saved for an entity: every field value under its name. -/
def entity.save (e : entity) : PropertyList :=
  e.fields.map fun f => (f.name, f.value)

/-- Populating an entity in place: every field that has a stored property
takes the stored value; the key and the parent key are not touched. -/
def entity.load (e : entity) (p : PropertyList) : entity :=
  { e with
    fields := e.fields.map fun f =>
      match List.lookup f.name p with
      | some v => { f with value := v }
      | none => f }

/-- The key with its integer id replaced. -/
def Key.withIntID : Key → Int → Key
  | .root k s _, i => .root k s i
  | .child k s _ p, i => .child k s i p

/-- An integer id above the integer id of every stored key. -/
def Store.freshID (s : Store) : Int :=
  s.foldr (fun x m => max x.1.IntID m) 0 + 1

/-- Modelled from the spec: `Get(key, record_out)` of the external storage
backend populates the record in place and reports a distinguished not-found
condition when the key addresses nothing; a nil key is an invalid key. -/
def Store.Get (s : Store) : Option Key → entity → Option Error × entity
  | none, e => (some Error.datastore_ErrInvalidKey, e)
  | some k, e =>
    match s.find k with
    | none => (some Error.datastore_ErrNoSuchEntity, e)
    | some p => (none, e.load p)

/-- Modelled from the spec: `Put(key, record)` of the external storage
backend is an upsert that returns the effective key, which differs from the
supplied key when the supplied key is incomplete (the backend then assigns an
identifier not in use). -/
def Store.Put (s : Store) : Option Key → entity →
    Option Key × Option Error × Store
  | none, _ => (none, some Error.datastore_ErrInvalidKey, s)
  | some k, e =>
    let k1 := if k.Incomplete then k.withIntID s.freshID else k
    (some k1, none, (k1, e.save) :: s.erase k1)

/-- Modelled from the spec: `Delete(key)` of the external storage backend
removes the entity under the key. -/
def Store.Delete (s : Store) : Option Key → Option Error × Store
  | none => (some Error.datastore_ErrInvalidKey, s)
  | some k => (none, s.erase k)

/-- The in-memory backend as a `Backend`. -/
def memory : Backend Store :=
  { Get := Store.Get, Put := Store.Put, Delete := Store.Delete }

/-! ## Example records -/

/-- The embedded `db.Model` slot with the given `db` tag. -/
def embeddedModel (tag : String) : Field :=
  { name := "Model", typeName := "Model", kind := .Struct, tag := tag,
    value := .other "" }

/-- A string field. -/
def stringField (name tag v : String) : Field :=
  { name := name, typeName := "string", kind := .String, tag := tag,
    value := .str v }

/-- The struct `Person` of the documentation of `ExtractKeyMetadata` (kind
annotation `People`, string identifier `Name`) with the field `Country` the
tests give it, holding the given values and carrying no key. -/
def Person (name country : String) : entity :=
  { typeName := "Person",
    fields := [embeddedModel "People", stringField "Name" "id" name,
      stringField "Country" "" country],
    key := none, parentKey := none }

/-- The struct `BankAccount` of the documentation of `ExtractKeyMetadata`
(kind annotation `Accounts`, integer identifier `Number`), holding the given
value and carrying no key. -/
def BankAccount (number : Int) : entity :=
  { typeName := "BankAccount",
    fields := [embeddedModel "Accounts",
      { name := "Number", typeName := "int", kind := .Int, tag := "id",
        value := .int number }],
    key := none, parentKey := none }

/-- The struct `Tag` of the tests (no kind annotation, string identifier
`Name`), holding the given value and carrying no key. -/
def Tag (name : String) : entity :=
  { typeName := "Tag",
    fields := [embeddedModel "", stringField "Name" "id" name],
    key := none, parentKey := none }

/-! ## The notions of the specification -/

/-- The model slot of a record: its first field of type `Model`. The kind
annotation of the record is the `db` tag of this slot. -/
def entity.modelSlot (e : entity) : Option Field :=
  e.fields.find? fun f => f.typeName == "Model"

/-- The identifier-annotated field of a record: its first field, in
declaration order, whose `db` tag is `id`. -/
def entity.idField (e : entity) : Option Field :=
  e.fields.find? fun f => f.tag == "id"

/-- The identifier-annotated fields of a record: its fields whose `db` tag
is `id`, in declaration order. -/
def entity.idFields (e : entity) : List Field :=
  e.fields.filter fun f => f.tag == "id"

/-- The signed integer kinds, those the source reads with `Value.Int`. -/
def isSignedInt : reflect.Kind → Bool
  | .Int | .Int8 | .Int16 | .Int32 | .Int64 => true
  | _ => false

/-- The integer kinds, signed and unsigned. -/
def isInteger : reflect.Kind → Bool
  | .Int | .Int8 | .Int16 | .Int32 | .Int64 => true
  | .Uint | .Uint8 | .Uint16 | .Uint32 | .Uint64 | .Uintptr => true
  | _ => false

/-- A field the identifier scan of the source stops at: tagged `id` and of
kind `String` or of a signed integer kind. -/
def Field.isKeyField (f : Field) : Bool :=
  f.tag == "id" && (f.kind == reflect.Kind.String || isSignedInt f.kind)

/-- The first field, in declaration order, that is tagged `id` and is a
string or a signed integer. -/
def entity.keyField (e : entity) : Option Field :=
  e.fields.find? Field.isKeyField

/-- The struct `type Counter struct { db.Model; N uint "db:id" }`, holding the
given value and carrying no key. -/
def Counter (n : Nat) : entity :=
  { typeName := "Counter",
    fields := [embeddedModel "",
      { name := "N", typeName := "uint", kind := .Uint, tag := "id",
        value := .uint n }],
    key := none, parentKey := none }

/-- The key a record addresses: the key it carries, or else the key derived
from it. -/
def entity.addressed (e : entity) : db.Key :=
  e.Key.getD (Datastore.NewKeyFor e)

/-- The static part of a field: its name, type name, kind and tag. -/
def Field.shape (f : Field) : String × String × reflect.Kind × String :=
  (f.name, f.typeName, f.kind, f.tag)

/-- Two records are of the same struct type. -/
def entity.sameType (a b : entity) : Prop :=
  a.typeName = b.typeName ∧ a.fields.map Field.shape = b.fields.map Field.shape

/-- A store holding one entity: `Person` with `Name = Diego`,
`Country = Brazil`, under the key `NewKeyFor` derives for it. -/
def diegoStored : Store :=
  [(Key.root "Person" "Diego" 0, (Person "Diego" "Brazil").save)]

/-- A backend that is out of reach: every call fails. -/
def unavailable : Backend Unit :=
  { Get := fun _ _ e => (some (Error.backend "unavailable"), e),
    Put := fun _ _ _ => (none, some (Error.backend "unavailable"), ()),
    Delete := fun _ _ => (some (Error.backend "unavailable"), ()) }

/-- A struct whose kind annotation is `Foo,hasparent` and whose string field
`Name` is tagged `id`, holding the given value and parent key and carrying no
key. -/
def Comment (name : String) (parent : Option Key) : entity :=
  { typeName := "Comment",
    fields := [embeddedModel "Foo,hasparent", stringField "Name" "id" name],
    key := none, parentKey := parent }

/-- A struct with no kind annotation and no identifier annotation, holding the
given value and carrying no key. -/
def Note (title : String) : entity :=
  { typeName := "Note",
    fields := [embeddedModel "", stringField "Title" "" title],
    key := none, parentKey := none }

/-- A struct with two identifier annotations, the first on a field of type
`uint64` and the second on a string field, holding the given values and
carrying no key. -/
def Ticket (serial : Nat) (name : String) : entity :=
  { typeName := "Ticket",
    fields := [embeddedModel "",
      { name := "Serial", typeName := "uint64", kind := .Uint64, tag := "id",
        value := .uint serial },
      stringField "Name" "id" name],
    key := none, parentKey := none }

/-- The struct `Tag` of the kind tests with the kind annotation `Tags` (and
no identifier annotation), holding the given value and carrying no key. -/
def TaggedTag (name : String) : entity :=
  { typeName := "Tag",
    fields := [embeddedModel "Tags", stringField "Name" "" name],
    key := none, parentKey := none }

/-- The memory of the querier tests: the pointer `diego` is 0 and the pointer
`munjal` is 1. -/
def peopleHeap : Heap :=
  fun r => if r = 0 then Person "Diego" "Brazil" else Person "Munjal" "USA"

/-- A bulk fetch that returns the keys `k0`, `k1` and no error and leaves the
collection as it is. -/
def fetchTwo (k0 k1 : Key) : Query :=
  { GetAll := fun slice h => ([k0, k1], none, slice, h) }

/-! ## Strings: lemmas -/

theorem splitChars_of_not_mem (sep : Char) (cs : List Char) (h : sep ∉ cs) :
    strings.splitChars sep cs = [cs] := by
  induction cs with
  | nil => rfl
  | cons c cs ih =>
    have hc : c ≠ sep := fun hc => h (by simp [hc])
    have hcs : sep ∉ cs := fun hcs => h (by simp [hcs])
    simp [strings.splitChars, hc, ih hcs]

theorem Split_of_not_mem (s : String) (sep : Char) (h : sep ∉ s.data) :
    strings.Split s sep = [s] := by
  simp [strings.Split, splitChars_of_not_mem sep s.data h]

theorem TrimSpace_empty : strings.TrimSpace "" = "" := by
  decide

/-! ## The key resolver: lemmas -/

theorem kindLoop_of_modelSlot (e : entity) (this : KeyResolver) (m : Field)
    (fields : List Field)
    (hm : fields.find? (fun f => f.typeName == "Model") = some m)
    (hcomma : ',' ∉ m.tag.data) (hblank : strings.TrimSpace m.tag ≠ "") :
    KeyResolver.ExtractKindMetadata.loop e fields this
      = (none, { this with Kind := m.tag }) := by
  induction fields with
  | nil => simp at hm
  | cons f rest ih =>
    have htag : m.tag ≠ "" := fun h0 => hblank (by rw [h0]; exact TrimSpace_empty)
    by_cases hf : f.typeName = "Model"
    · have hfm : f = m := by simpa [List.find?_cons, hf] using hm
      subst hfm
      simp [KeyResolver.ExtractKindMetadata.loop, hf, htag,
        Split_of_not_mem _ _ hcomma, hblank]
    · have hrest : rest.find? (fun f => f.typeName == "Model") = some m := by
        simpa [List.find?_cons, hf] using hm
      simp [KeyResolver.ExtractKindMetadata.loop, hf, ih hrest]

theorem keyLoop_of_idField_string (this : KeyResolver) (f : Field)
    (fields : List Field)
    (hf : fields.find? (fun f => f.tag == "id") = some f)
    (hkind : f.kind = reflect.Kind.String) :
    KeyResolver.ExtractKeyMetadata.loop fields this
      = if f.value.String = "" then (some Error.ErrMissingStringId, this)
        else (none, { this with StringID := f.value.String, IntID := 0 }) := by
  induction fields with
  | nil => simp at hf
  | cons g rest ih =>
    by_cases hg : g.tag = "id"
    · have hgf : g = f := by simpa [List.find?_cons, hg] using hf
      subst hgf
      simp [KeyResolver.ExtractKeyMetadata.loop, hg, hkind]
    · have hrest : rest.find? (fun f => f.tag == "id") = some f := by
        simpa [List.find?_cons, hg] using hf
      simp [KeyResolver.ExtractKeyMetadata.loop, hg, ih hrest]

/-! ## Resolution from the annotations -/

/-- C1: for a record without a key and without a parent whose kind annotation
is the kind name `K` and whose identifier-annotated field is a string holding
a non-empty `v`, `Resolve` on a new resolver returns no error, leaves the
resolver with `Kind = K`, `StringID = v`, `IntID = 0`, `HasParent = false`,
and attaches the key built from exactly those components. -/
theorem resolve_string_identifier (e : entity) (K v : String) (m f : Field)
    (hkey : e.key = none) (hparent : e.parentKey = none)
    (hm : e.modelSlot = some m) (hK : m.tag = K)
    (hcomma : ',' ∉ K.data) (hblank : strings.TrimSpace K ≠ "")
    (hf : e.idField = some f) (hkind : f.kind = reflect.Kind.String)
    (hv : f.value.String = v) (hne : v ≠ "") :
    NewKeyResolver.Resolve e
      = (none,
         { Kind := K, StringID := v, IntID := 0, HasParent := false,
           Parent := none },
         e.SetKey (some (datastore.NewKey K v 0 none))) := by
  subst hK hv
  have h1 := kindLoop_of_modelSlot e
    { Kind := e.typeName, StringID := "", IntID := 0, HasParent := false,
      Parent := none } m e.fields hm hcomma hblank
  have h2 := fun this => keyLoop_of_idField_string this f e.fields hf hkind
  simp [KeyResolver.Resolve, entity.Key, hkey, KeyResolver.ExtractMetadataFrom,
    KeyResolver.ExtractKindMetadata, KeyResolver.ExtractKeyMetadata, h1, h2, hne,
    entity.Parent, hparent, NewKeyResolver]

/-- C1, at the record of the scenario: kind `People`, `Name = Diego`. -/
theorem resolve_string_identifier_witness :
    NewKeyResolver.Resolve (Person "Diego" "Brazil")
      = (none,
         { Kind := "People", StringID := "Diego", IntID := 0,
           HasParent := false, Parent := none },
         (Person "Diego" "Brazil").SetKey
           (some (datastore.NewKey "People" "Diego" 0 none))) :=
  resolve_string_identifier (Person "Diego" "Brazil") "People" "Diego"
    (embeddedModel "People") (stringField "Name" "id" "Diego")
    rfl rfl (by decide) rfl (by decide) (by decide) (by decide) rfl rfl
    (by decide)

/-! ## The identifier scan: lemmas -/

@[simp]
theorem NewKey_Kind (k s : String) (i : Int) (p : Option Key) :
    (datastore.NewKey k s i p).Kind = k := by
  cases p <;> rfl

@[simp]
theorem NewKey_StringID (k s : String) (i : Int) (p : Option Key) :
    (datastore.NewKey k s i p).StringID = s := by
  cases p <;> rfl

@[simp]
theorem NewKey_IntID (k s : String) (i : Int) (p : Option Key) :
    (datastore.NewKey k s i p).IntID = i := by
  cases p <;> rfl

@[simp]
theorem NewKey_Parent (k s : String) (i : Int) (p : Option Key) :
    (datastore.NewKey k s i p).Parent = p := by
  cases p <;> rfl

theorem keyLoop_eq (fields : List Field) (this : KeyResolver) :
    KeyResolver.ExtractKeyMetadata.loop fields this
      = match fields.find? Field.isKeyField with
        | none => (none, this)
        | some f =>
          if f.kind = reflect.Kind.String then
            if f.value.String = "" then (some Error.ErrMissingStringId, this)
            else (none, { this with StringID := f.value.String, IntID := 0 })
          else
            if f.value.Int = 0 then (some Error.ErrMissingIntId, this)
            else (none, { this with StringID := "", IntID := f.value.Int }) := by
  induction fields with
  | nil => rfl
  | cons g rest ih =>
    by_cases hg : g.tag = "id"
    · cases hk : g.kind <;>
        simp [KeyResolver.ExtractKeyMetadata.loop, List.find?_cons,
          Field.isKeyField, isSignedInt, hg, hk, ih]
    · simp [KeyResolver.ExtractKeyMetadata.loop, List.find?_cons,
        Field.isKeyField, hg, ih]

theorem extractIDs_eq (fields : List Field) :
    Datastore.extractIDs.loop fields
      = match fields.find? Field.isKeyField with
        | none => ("", 0)
        | some f =>
          if f.kind = reflect.Kind.String then (f.value.String, 0)
          else ("", f.value.Int) := by
  induction fields with
  | nil => rfl
  | cons g rest ih =>
    by_cases hg : g.tag = "id"
    · cases hk : g.kind <;>
        simp [Datastore.extractIDs.loop, List.find?_cons,
          Field.isKeyField, isSignedInt, hg, hk, ih]
    · simp [Datastore.extractIDs.loop, List.find?_cons,
        Field.isKeyField, hg, ih]

theorem kindLoop_preserves (e : entity) (fields : List Field)
    (this : KeyResolver) :
    (KeyResolver.ExtractKindMetadata.loop e fields this).2.StringID = this.StringID
    ∧ (KeyResolver.ExtractKindMetadata.loop e fields this).2.IntID = this.IntID
    ∧ (KeyResolver.ExtractKindMetadata.loop e fields this).2.Parent = this.Parent := by
  induction fields with
  | nil => simp [KeyResolver.ExtractKindMetadata.loop]
  | cons g rest ih =>
    simp only [KeyResolver.ExtractKindMetadata.loop]
    split_ifs <;> simp [ih]

theorem kindLoop_of_no_annotation (e : entity) (fields : List Field)
    (this : KeyResolver)
    (h : ∀ f ∈ fields, f.typeName = "Model" → f.tag = "") :
    KeyResolver.ExtractKindMetadata.loop e fields this = (none, this) := by
  induction fields with
  | nil => rfl
  | cons g rest ih =>
    have hrest : ∀ f ∈ rest, f.typeName = "Model" → f.tag = "" :=
      fun f hf => h f (List.mem_cons_of_mem g hf)
    by_cases hg : g.typeName = "Model"
    · have hgt : g.tag = "" := h g (List.mem_cons_self g rest) hg
      simp [KeyResolver.ExtractKindMetadata.loop, hg, hgt, ih hrest]
    · simp [KeyResolver.ExtractKindMetadata.loop, hg, ih hrest]

theorem bne_none_eq_isSome (p : Option Key) : (p != none) = p.isSome := by
  cases p <;> rfl

/-! ## Resolving twice -/

/-- C2 as stated fails: the record `Tag` with `Name = golang` and a parent
key set (its kind annotation has no `hasparent`) resolves without error both
times, with `HasParent = false` the first time and `HasParent = true` the
second. -/
theorem resolve_twice_hasParent_differs :
    (NewKeyResolver.Resolve
      ((Tag "golang").SetParent (some (Key.root "Blog" "go" 0)))).1 = none
    ∧ (NewKeyResolver.Resolve
      ((Tag "golang").SetParent (some (Key.root "Blog" "go" 0)))).2.1.HasParent
        = false
    ∧ (NewKeyResolver.Resolve (NewKeyResolver.Resolve
      ((Tag "golang").SetParent (some (Key.root "Blog" "go" 0)))).2.2).1 = none
    ∧ (NewKeyResolver.Resolve (NewKeyResolver.Resolve
      ((Tag "golang").SetParent (some (Key.root "Blog" "go" 0)))).2.2).2.1.HasParent
        = true := by
  decide

/-- C2, amended: when `Resolve` succeeds on a record, resolving the record
again (with any resolver) succeeds, leaves the record and its key unchanged
and yields the same `Kind`, `StringID`, `IntID` and `Parent`; the second
`HasParent` is whether the key has a parent. -/
theorem resolve_twice (this that : KeyResolver) (e : entity)
    (h : (this.Resolve e).1 = none) :
    (that.Resolve (this.Resolve e).2.2).1 = none
    ∧ (that.Resolve (this.Resolve e).2.2).2.2 = (this.Resolve e).2.2
    ∧ (that.Resolve (this.Resolve e).2.2).2.1.Kind = (this.Resolve e).2.1.Kind
    ∧ (that.Resolve (this.Resolve e).2.2).2.1.StringID
        = (this.Resolve e).2.1.StringID
    ∧ (that.Resolve (this.Resolve e).2.2).2.1.IntID = (this.Resolve e).2.1.IntID
    ∧ (that.Resolve (this.Resolve e).2.2).2.1.Parent
        = (this.Resolve e).2.1.Parent
    ∧ (that.Resolve (this.Resolve e).2.2).2.1.HasParent
        = (this.Resolve e).2.1.Parent.isSome := by
  rcases hk : e.key with _ | k
  · rcases hm : this.ExtractMetadataFrom e with ⟨_ | err, this1⟩
    · simp [KeyResolver.Resolve, entity.Key, entity.SetKey, hk, hm,
        bne_none_eq_isSome]
    · simp [KeyResolver.Resolve, entity.Key, hk, hm] at h
  · simp [KeyResolver.Resolve, entity.Key, hk, bne_none_eq_isSome]

/-- C2, amended, at the record `Tag` with `Name = golang` of the tests. -/
theorem resolve_twice_witness :
    (NewKeyResolver.Resolve (NewKeyResolver.Resolve (Tag "golang")).2.2).1 = none
    ∧ (NewKeyResolver.Resolve (NewKeyResolver.Resolve (Tag "golang")).2.2).2.1.Kind
        = "Tag" :=
  ⟨(resolve_twice NewKeyResolver NewKeyResolver (Tag "golang") (by decide)).1,
   (resolve_twice NewKeyResolver NewKeyResolver (Tag "golang")
      (by decide)).2.2.1.trans (by decide)⟩

/-! ## The key of the mediator and the key of the resolver -/

/-- C3 as stated fails: for `Person` with `Name = Diego`, whose kind
annotation is `People`, `Resolve` succeeds and attaches a key of kind `People`
while `NewKeyFor` derives a key of kind `Person`. -/
theorem newKeyFor_kind_differs :
    (Person "Diego" "Brazil").key = none
    ∧ (NewKeyResolver.Resolve (Person "Diego" "Brazil")).1 = none
    ∧ (NewKeyResolver.Resolve (Person "Diego" "Brazil")).2.2.key
        = some (Key.root "People" "Diego" 0)
    ∧ Datastore.NewKeyFor (Person "Diego" "Brazil") = Key.root "Person" "Diego" 0 := by
  decide

/-- C3, amended: for a record without a key on which `Resolve` (new resolver)
succeeds, the key `NewKeyFor` derives has the `StringID`, `IntID` and parent
of the key `Resolve` attaches, and the record's type name as its `Kind`; it is
the attached key when the record has no kind annotation. -/
theorem newKeyFor_of_resolve (e : entity) (hkey : e.key = none)
    (h : (NewKeyResolver.Resolve e).1 = none) :
    ∃ k, (NewKeyResolver.Resolve e).2.2.key = some k
      ∧ Datastore.NewKeyFor e
          = datastore.NewKey e.typeName k.StringID k.IntID k.Parent
      ∧ ((∀ f ∈ e.fields, f.typeName = "Model" → f.tag = "") →
          Datastore.NewKeyFor e = k) := by
  obtain ⟨hs, hi, hp⟩ := kindLoop_preserves e e.fields
    { Kind := e.typeName, StringID := "", IntID := 0, HasParent := false,
      Parent := none }
  have hno := kindLoop_of_no_annotation e e.fields
    { Kind := e.typeName, StringID := "", IntID := 0, HasParent := false,
      Parent := none }
  rcases hkm : KeyResolver.ExtractKindMetadata.loop e e.fields
    { Kind := e.typeName, StringID := "", IntID := 0, HasParent := false,
      Parent := none } with ⟨err1, this1⟩
  rw [hkm] at hs hi hp hno
  simp only at hs hi hp
  cases err1 with
  | some err =>
    simp [KeyResolver.Resolve, entity.Key, hkey, KeyResolver.ExtractMetadataFrom,
      KeyResolver.ExtractKindMetadata, NewKeyResolver, hkm] at h
  | none =>
    simp only [KeyResolver.Resolve, entity.Key, hkey, NewKeyResolver,
      KeyResolver.ExtractMetadataFrom, KeyResolver.ExtractKindMetadata, hkm,
      KeyResolver.ExtractKeyMetadata, keyLoop_eq, Datastore.NewKeyFor,
      Datastore.extractIDs, extractIDs_eq, entity.Parent, entity.SetKey] at h ⊢
    rcases hfind : e.fields.find? Field.isKeyField with _ | f
    · simp only [hfind] at h ⊢
      refine ⟨_, rfl, ?_, ?_⟩
      · simp [hs, hi]
      · intro hann
        have := hno hann
        simp at this
        subst this
        simp
    · simp only [hfind] at h ⊢
      by_cases hkS : f.kind = reflect.Kind.String
      · by_cases hv : f.value.String = ""
        · simp [hkS, hv] at h
        · simp only [hkS, hv, if_true, if_false]
          refine ⟨_, rfl, ?_, ?_⟩
          · simp
          · intro hann
            have := hno hann
            simp at this
            subst this
            simp
      · by_cases hv : f.value.Int = 0
        · simp [hkS, hv] at h
        · simp only [hkS, hv, if_true, if_false]
          refine ⟨_, rfl, ?_, ?_⟩
          · simp
          · intro hann
            have := hno hann
            simp at this
            subst this
            simp

/-- C3, amended, at `Tag` with `Name = golang`, which has no kind annotation:
the derived key is the attached key. -/
theorem newKeyFor_of_resolve_witness :
    ∃ k, (NewKeyResolver.Resolve (Tag "golang")).2.2.key = some k
      ∧ Datastore.NewKeyFor (Tag "golang")
          = datastore.NewKey "Tag" k.StringID k.IntID k.Parent
      ∧ ((∀ f ∈ (Tag "golang").fields, f.typeName = "Model" → f.tag = "") →
          Datastore.NewKeyFor (Tag "golang") = k) :=
  newKeyFor_of_resolve (Tag "golang") rfl (by decide)

/-! ## Missing identifiers -/

/-- C10 as stated fails: the record `Counter` with `N = 0` has no key, its
kind resolution succeeds, its identifier-annotated field is an integer (of
kind `Uint`) holding 0, and `Resolve` returns no error. -/
theorem resolve_unsigned_zero :
    (Counter 0).key = none
    ∧ (Counter 0).fields.all Field.wellTyped = true
    ∧ (NewKeyResolver.ExtractKindMetadata (Counter 0)).1 = none
    ∧ (∃ f, (Counter 0).idField = some f ∧ isInteger f.kind = true
        ∧ f.value = Value.uint 0)
    ∧ (NewKeyResolver.Resolve (Counter 0)).1 = none :=
  ⟨rfl, by decide, by decide, ⟨_, rfl, by decide, rfl⟩, by decide⟩

theorem resolve_error_of_keyField (this : KeyResolver) (e : entity)
    (hkey : e.key = none) (hkind : (this.ExtractKindMetadata e).1 = none) :
    ((this.Resolve e).1 = some Error.ErrMissingStringId ↔
      ∃ f, e.keyField = some f ∧ f.kind = reflect.Kind.String
        ∧ f.value.String = "")
    ∧ ((this.Resolve e).1 = some Error.ErrMissingIntId ↔
      ∃ f, e.keyField = some f ∧ isSignedInt f.kind = true ∧ f.value.Int = 0)
    ∧ ((this.Resolve e).1 ≠ some Error.ErrMissingStringId →
        (this.Resolve e).1 ≠ some Error.ErrMissingIntId →
        (this.Resolve e).1 = none) := by
  rcases hkm : this.ExtractKindMetadata e with ⟨err1, this1⟩
  rw [hkm] at hkind
  simp only at hkind
  subst hkind
  simp only [KeyResolver.Resolve, entity.Key, hkey,
    KeyResolver.ExtractMetadataFrom, hkm, KeyResolver.ExtractKeyMetadata,
    keyLoop_eq, entity.keyField]
  rcases hfind : e.fields.find? Field.isKeyField with _ | f
  · simp
  · have hf : f.isKeyField = true := List.find?_some hfind
    by_cases hkS : f.kind = reflect.Kind.String
    · by_cases hv : f.value.String = "" <;> simp [hkS, hv, isSignedInt]
    · have hsi : isSignedInt f.kind = true := by
        have := hf
        simp only [Field.isKeyField, Bool.and_eq_true, Bool.or_eq_true,
          beq_iff_eq] at this
        exact this.2.resolve_left hkS
      by_cases hv : f.value.Int = 0 <;> simp [hkS, hv, hsi]

theorem find?_and_of_filter_length_le_one (p q : Field → Bool) (l : List Field)
    (h : (l.filter p).length ≤ 1) :
    l.find? (fun f => p f && q f) = (l.find? p).filter q := by
  induction l with
  | nil => rfl
  | cons g rest ih =>
    by_cases hp : p g = true
    · have hrest : rest.filter p = [] := by
        simp only [List.filter_cons, hp, if_true, List.length_cons] at h
        exact List.length_eq_zero.mp (by omega)
      have hnone : rest.find? (fun f => p f && q f) = none := by
        rw [List.find?_eq_none]
        intro x hx
        have hpx : p x = false := by
          cases hpx : p x
          · rfl
          · have : x ∈ rest.filter p := List.mem_filter.mpr ⟨hx, hpx⟩
            rw [hrest] at this
            simp at this
        simp [hpx]
      by_cases hq : q g = true
      · simp [List.find?_cons, hp, hq, Option.filter]
      · simp [List.find?_cons, hp, hq, Option.filter, hnone]
    · have hrest : (rest.filter p).length ≤ 1 := by
        simpa [List.filter_cons, hp] using h
      simp [List.find?_cons, hp, ih hrest]

theorem keyField_of_idFields_length_le_one (e : entity)
    (hone : e.idFields.length ≤ 1) :
    e.keyField = e.idField.filter fun f =>
      f.kind == reflect.Kind.String || isSignedInt f.kind :=
  find?_and_of_filter_length_le_one (fun f => f.tag == "id")
    (fun f => f.kind == reflect.Kind.String || isSignedInt f.kind) e.fields hone

theorem exists_filter_iff (o : Option Field) (q : Field → Bool)
    (P : Field → Prop) (hPq : ∀ f, P f → q f = true) :
    (∃ f, o.filter q = some f ∧ P f) ↔ ∃ f, o = some f ∧ P f := by
  constructor
  · rintro ⟨f, hf, hP⟩
    cases o with
    | none => simp [Option.filter] at hf
    | some g =>
      simp only [Option.filter] at hf
      split at hf
      · cases hf
        exact ⟨_, rfl, hP⟩
      · cases hf
  · rintro ⟨f, rfl, hP⟩
    exact ⟨f, by simp [Option.filter, hPq f hP], hP⟩

/-- C10, amended: for a record without a key that has at most one
identifier-annotated field and whose kind resolution succeeds, `Resolve` fails
with `ErrMissingStringId` exactly when the identifier-annotated field is a
string holding the empty string, fails with `ErrMissingIntId` exactly when it
is a signed integer holding 0, and otherwise returns no error. -/
theorem resolve_missing_identifier (this : KeyResolver) (e : entity)
    (hkey : e.key = none) (hone : e.idFields.length ≤ 1)
    (hkind : (this.ExtractKindMetadata e).1 = none) :
    ((this.Resolve e).1 = some Error.ErrMissingStringId ↔
      ∃ f, e.idField = some f ∧ f.kind = reflect.Kind.String
        ∧ f.value.String = "")
    ∧ ((this.Resolve e).1 = some Error.ErrMissingIntId ↔
      ∃ f, e.idField = some f ∧ isSignedInt f.kind = true ∧ f.value.Int = 0)
    ∧ ((this.Resolve e).1 ≠ some Error.ErrMissingStringId →
        (this.Resolve e).1 ≠ some Error.ErrMissingIntId →
        (this.Resolve e).1 = none) := by
  obtain ⟨h1, h2, h3⟩ := resolve_error_of_keyField this e hkey hkind
  rw [keyField_of_idFields_length_le_one e hone] at h1 h2
  refine ⟨h1.trans ?_, h2.trans ?_, h3⟩
  · exact exists_filter_iff e.idField _ _ fun f hf => by simp [hf.1]
  · exact exists_filter_iff e.idField _ _ fun f hf => by simp [hf.1]

/-- C10, amended, at the second record of the scenario (kind `People` with
`Name` empty fails with `ErrMissingStringId`) and at `BankAccount` with
`Number = 0` (fails with `ErrMissingIntId`). -/
theorem resolve_missing_identifier_witness :
    (NewKeyResolver.Resolve (Person "" "Brazil")).1
      = some Error.ErrMissingStringId
    ∧ (NewKeyResolver.Resolve (BankAccount 0)).1 = some Error.ErrMissingIntId :=
  ⟨(resolve_missing_identifier NewKeyResolver (Person "" "Brazil") rfl
      (by decide) (by decide)).1.mpr
        ⟨stringField "Name" "id" "", by decide, rfl, rfl⟩,
   (resolve_missing_identifier NewKeyResolver (BankAccount 0) rfl
      (by decide) (by decide)).2.1.mpr
        ⟨{ name := "Number", typeName := "int", kind := .Int, tag := "id",
           value := .int 0 }, by decide, rfl, rfl⟩⟩

/-! ## The in-memory backend: lemmas -/

theorem find_cons_self (s : Store) (k : Key) (p : PropertyList) :
    Store.find ((k, p) :: s) k = some p := by
  simp [Store.find, List.lookup]

theorem find_erase_self (s : Store) (k : Key) : (s.erase k).find k = none := by
  induction s with
  | nil => rfl
  | cons x rest ih =>
    obtain ⟨k1, p1⟩ := x
    by_cases h : k1 = k
    · simpa [Store.erase, Store.find, List.filter_cons, h] using ih
    · have h2 : (k == k1) = false := by simpa using fun h3 => h h3.symm
      simpa [Store.erase, Store.find, List.filter_cons, h, List.lookup, h2]
        using ih

theorem find_erase_of_ne (s : Store) (k k1 : Key) (h : k1 ≠ k) :
    (s.erase k).find k1 = s.find k1 := by
  induction s with
  | nil => rfl
  | cons x rest ih =>
    obtain ⟨k2, p2⟩ := x
    by_cases h2 : k2 = k
    · subst h2
      have h3 : (k1 == k2) = false := by simpa using h
      simpa [Store.erase, Store.find, List.filter_cons, List.lookup, h3]
        using ih
    · by_cases h4 : k1 = k2
      · simp [Store.erase, Store.find, List.filter_cons, h2, List.lookup, h4]
      · have h3 : (k1 == k2) = false := by simpa using h4
        simpa [Store.erase, Store.find, List.filter_cons, h2, List.lookup, h3]
          using ih

theorem IntID_lt_freshID (s : Store) :
    ∀ x ∈ s, x.1.IntID < s.freshID := by
  induction s with
  | nil => intro x hx; simp at hx
  | cons y rest ih =>
    intro x hx
    have hstep : Store.freshID (y :: rest)
        = max y.1.IntID (rest.foldr (fun x m => max x.1.IntID m) 0) + 1 := rfl
    rcases List.mem_cons.mp hx with rfl | hr
    · rw [hstep]
      have := le_max_left x.1.IntID (rest.foldr (fun x m => max x.1.IntID m) 0)
      omega
    · have h1 := ih x hr
      have h2 : Store.freshID rest
          = rest.foldr (fun x m => max x.1.IntID m) 0 + 1 := rfl
      rw [hstep]
      have := le_max_right y.1.IntID (rest.foldr (fun x m => max x.1.IntID m) 0)
      omega

theorem withIntID_IntID (k : Key) (i : Int) : (k.withIntID i).IntID = i := by
  cases k <;> rfl

theorem find_eq_none_of_ne (s : Store) (k : Key) (h : ∀ x ∈ s, x.1 ≠ k) :
    s.find k = none := by
  induction s with
  | nil => rfl
  | cons y rest ih =>
    obtain ⟨k1, p1⟩ := y
    have h1 : k1 ≠ k := h (k1, p1) (List.mem_cons_self _ _)
    have h2 : (k == k1) = false := by simpa using fun h3 => h1 h3.symm
    have h4 := ih fun x hx => h x (List.mem_cons_of_mem _ hx)
    simpa [Store.find, List.lookup, h2] using h4

theorem find_fresh (s : Store) (k : Key) :
    s.find (k.withIntID s.freshID) = none := by
  apply find_eq_none_of_ne
  intro x hx heq
  have h1 := IntID_lt_freshID s x hx
  rw [heq, withIntID_IntID] at h1
  exact lt_irrefl _ h1

theorem SetKey_addressed (e : entity) :
    (if !e.HasKey then e.SetKey (some (Datastore.NewKeyFor e)) else e)
      = e.SetKey (some e.addressed) := by
  obtain ⟨t, fs, key, par⟩ := e
  cases key <;> simp [entity.HasKey, entity.SetKey, entity.addressed, entity.Key]

theorem Load_eq {σ : Type} (b : Backend σ) (st : σ) (e : entity) :
    Datastore.Load b st e
      = if (b.Get st (some e.addressed) (e.SetKey (some e.addressed))).1
            = some Error.datastore_ErrNoSuchEntity then
          (some Error.ErrNoSuchEntity,
            (b.Get st (some e.addressed) (e.SetKey (some e.addressed))).2)
        else b.Get st (some e.addressed) (e.SetKey (some e.addressed)) := by
  simp only [Datastore.Load, SetKey_addressed]
  rfl

theorem Load_memory (s : Store) (e : entity) :
    Datastore.Load memory s e
      = match s.find e.addressed with
        | none => (some Error.ErrNoSuchEntity, e.SetKey (some e.addressed))
        | some p => (none, (e.SetKey (some e.addressed)).load p) := by
  rw [Load_eq]
  simp only [memory, Store.Get]
  cases s.find e.addressed <;> simp

theorem lookup_save (fs : List Field) (hn : (fs.map Field.name).Nodup) :
    ∀ f ∈ fs,
      List.lookup f.name (fs.map fun g => (g.name, g.value)) = some f.value := by
  induction fs with
  | nil => intro f hf; simp at hf
  | cons g rest ih =>
    rw [List.map_cons, List.nodup_cons] at hn
    intro f hf
    rcases List.mem_cons.mp hf with rfl | hfr
    · simp [List.lookup]
    · have hne : f.name ≠ g.name := by
        intro heq
        exact hn.1 (heq ▸ List.mem_map_of_mem Field.name hfr)
      have hb : (f.name == g.name) = false := by simpa using hne
      simp only [List.map_cons, List.lookup, hb]
      exact ih hn.2 f hfr

theorem load_fields (p : PropertyList) (fs : List Field) :
    ∀ fs1 : List Field, fs1.map Field.shape = fs.map Field.shape →
      (∀ f ∈ fs, List.lookup f.name p = some f.value) →
      fs1.map (fun f =>
        match List.lookup f.name p with
        | some v => { f with value := v }
        | none => f) = fs := by
  induction fs with
  | nil => intro fs1 h _; simpa using h
  | cons g rest ih =>
    intro fs1 h hp
    cases fs1 with
    | nil => simp at h
    | cons g1 rest1 =>
      simp only [List.map_cons, List.cons.injEq] at h
      obtain ⟨hg, hrest⟩ := h
      have hname : g1.name = g.name := by
        simpa using congrArg (fun x => x.1) hg
      have hlook := hp g (List.mem_cons_self g rest)
      have htail := ih rest1 hrest fun f hf => hp f (List.mem_cons_of_mem g hf)
      simp only [List.map_cons, hname, hlook, htail, List.cons.injEq, and_true]
      obtain ⟨n1, t1, k1, tg1, v1⟩ := g1
      obtain ⟨n, t, k, tg, v⟩ := g
      simp only [Field.shape, Prod.mk.injEq] at hg
      obtain ⟨h1, h2, h3, h4⟩ := hg
      subst h1 h2 h3 h4
      rfl

/-! ## The mediator over the in-memory backend -/

/-- C4, the code at a failing input: the store holds `Person` with
`Country = Brazil`; `Update` of the record carrying the same key with
`Country = USA` returns no error and the store still holds `Brazil`, not the
values the record had when `Update` was called. -/
theorem update_keeps_stored_values :
    diegoStored.find (Key.root "Person" "Diego" 0)
      = some (Person "Diego" "Brazil").save
    ∧ (Datastore.Update memory diegoStored
        ((Person "Diego" "USA").SetKey (some (Key.root "Person" "Diego" 0)))).1
      = none
    ∧ (Datastore.Update memory diegoStored
        ((Person "Diego" "USA").SetKey
          (some (Key.root "Person" "Diego" 0)))).2.2.find
        (Key.root "Person" "Diego" 0)
      = some (Person "Diego" "Brazil").save
    ∧ (Person "Diego" "USA").save ≠ (Person "Diego" "Brazil").save := by
  decide

/-- C5, the code at a failing input: the record is `Person` with
`Name = Diego`, `Country = USA`, carrying the key `Resolve` attached to it
(kind `People`); the store holds an entity under the key `Create` writes
under (kind `Person`); `Create` returns no error and overwrites it. -/
theorem create_overwrites_existing :
    (NewKeyResolver.Resolve (Person "Diego" "USA")).2.2.key
      = some (Key.root "People" "Diego" 0)
    ∧ (Datastore.Create memory diegoStored
        (NewKeyResolver.Resolve (Person "Diego" "USA")).2.2).1 = none
    ∧ (Datastore.Create memory diegoStored
        (NewKeyResolver.Resolve (Person "Diego" "USA")).2.2).2.1.key
      = some (Key.root "Person" "Diego" 0)
    ∧ diegoStored.find (Key.root "Person" "Diego" 0)
      = some (Person "Diego" "Brazil").save
    ∧ (Datastore.Create memory diegoStored
        (NewKeyResolver.Resolve (Person "Diego" "USA")).2.2).2.2.find
        (Key.root "Person" "Diego" 0)
      = some (Person "Diego" "USA").save := by
  decide

/-- C6: when the key a record addresses (the key it carries, or else the key
derived from it) has an entity in the store, `Create` returns
`ErrEntityExists` and the store is unchanged. -/
theorem create_existing (s : Store) (e : entity) (p : PropertyList)
    (h : s.find e.addressed = some p) :
    (Datastore.Create memory s e).1 = some Error.ErrEntityExists
    ∧ (Datastore.Create memory s e).2.2 = s := by
  simp [Datastore.Create, Load_memory, h]

/-- C6 at the store holding Diego and the record `Person` with
`Name = Diego`. -/
theorem create_existing_witness :
    (Datastore.Create memory diegoStored (Person "Diego" "USA")).1
      = some Error.ErrEntityExists
    ∧ (Datastore.Create memory diegoStored (Person "Diego" "USA")).2.2
      = diegoStored :=
  create_existing diegoStored (Person "Diego" "USA")
    (Person "Diego" "Brazil").save (by decide)

/-- C7: when the key a record addresses has no entity in the store, `Load`,
`Update` and `Delete` return `ErrNoSuchEntity` and leave the store unchanged;
and over any backend, when the read fails with `err`, the three operations
return `ErrNoSuchEntity` if `err` is the backend's own not-found value and
`err` itself otherwise, leaving the backend state unchanged. -/
theorem not_found (e : entity) :
    (∀ s : Store, s.find e.addressed = none →
      (Datastore.Load memory s e).1 = some Error.ErrNoSuchEntity
      ∧ (Datastore.Update memory s e).1 = some Error.ErrNoSuchEntity
      ∧ (Datastore.Update memory s e).2.2 = s
      ∧ (Datastore.Delete memory s e).1 = some Error.ErrNoSuchEntity
      ∧ (Datastore.Delete memory s e).2.2 = s)
    ∧ (∀ (σ : Type) (b : Backend σ) (st : σ) (err : Error),
      (b.Get st (some e.addressed) (e.SetKey (some e.addressed))).1 = some err →
      (Datastore.Load b st e).1
        = some (if err = Error.datastore_ErrNoSuchEntity
            then Error.ErrNoSuchEntity else err)
      ∧ (Datastore.Update b st e).1
        = some (if err = Error.datastore_ErrNoSuchEntity
            then Error.ErrNoSuchEntity else err)
      ∧ (Datastore.Update b st e).2.2 = st
      ∧ (Datastore.Delete b st e).1
        = some (if err = Error.datastore_ErrNoSuchEntity
            then Error.ErrNoSuchEntity else err)
      ∧ (Datastore.Delete b st e).2.2 = st) := by
  constructor
  · intro s h
    simp [Datastore.Update, Datastore.Delete, Load_memory, h]
  · intro σ b st err h
    rcases hget : b.Get st (some e.addressed) (e.SetKey (some e.addressed))
      with ⟨err1, e1⟩
    rw [hget] at h
    simp only at h
    subst h
    by_cases herr : err = Error.datastore_ErrNoSuchEntity
    · simp [Datastore.Update, Datastore.Delete, Load_eq, hget, herr]
    · simp [Datastore.Update, Datastore.Delete, Load_eq, hget, herr]

/-- C7 at the empty store and at a backend out of reach, for `Person` with
`Name = Diego`. -/
theorem not_found_witness :
    (Datastore.Load memory [] (Person "Diego" "Brazil")).1
      = some Error.ErrNoSuchEntity
    ∧ (Datastore.Update unavailable () (Person "Diego" "Brazil")).1
      = some (Error.backend "unavailable") :=
  ⟨((not_found (Person "Diego" "Brazil")).1 [] (by decide)).1,
   ((not_found (Person "Diego" "Brazil")).2 Unit unavailable ()
      (Error.backend "unavailable") rfl).2.1.trans (by decide)⟩

/-- C8: when `Create` of `r` returns no error, `Load` of a record of the same
type that carries the key `Create` attached to `r` returns no error and
leaves that record with the field values `r` had when it was created. -/
theorem create_then_load (s : Store) (r r1 : entity)
    (hcreate : (Datastore.Create memory s r).1 = none)
    (htype : r1.sameType r)
    (hnames : (r.fields.map Field.name).Nodup)
    (hkey : r1.key = (Datastore.Create memory s r).2.1.key) :
    (Datastore.Load memory (Datastore.Create memory s r).2.2 r1).1 = none
    ∧ (Datastore.Load memory (Datastore.Create memory s r).2.2 r1).2.fields
      = r.fields := by
  rcases hfind : s.find r.addressed with _ | p
  · simp only [Datastore.Create, Load_memory, hfind] at hkey ⊢
    simp only [memory, Store.Put] at hkey ⊢
    generalize hk1 : (if (Datastore.NewKeyFor (r.SetKey (some r.addressed))).Incomplete
      = true then (Datastore.NewKeyFor (r.SetKey (some r.addressed))).withIntID
        s.freshID else Datastore.NewKeyFor (r.SetKey (some r.addressed))) = k1
      at hkey ⊢
    have haddr : r1.addressed = k1 := by
      simp [entity.addressed, entity.Key, hkey, entity.SetKey]
    simp only [haddr, find_cons_self]
    refine ⟨trivial, ?_⟩
    exact load_fields _ r.fields r1.fields htype.2
      (lookup_save r.fields hnames)
  · simp [Datastore.Create, Load_memory, hfind] at hcreate

/-- C8 at the empty store: `Person` with `Name = Diego`, `Country = Brazil`
is created, then loaded into a blank `Person` carrying its key. -/
theorem create_then_load_witness :
    (Datastore.Load memory
      (Datastore.Create memory [] (Person "Diego" "Brazil")).2.2
      ((Person "" "").SetKey (some (Key.root "Person" "Diego" 0)))).2.fields
      = (Person "Diego" "Brazil").fields :=
  (create_then_load [] (Person "Diego" "Brazil")
    ((Person "" "").SetKey (some (Key.root "Person" "Diego" 0)))
    (by decide) ⟨rfl, by decide⟩ (by decide) (by decide)).2

/-- C9: when the key a record addresses has an entity in the store, `Delete`
returns no error, afterwards the store has no entity under that key, a `Load`
of a record addressing that key returns `ErrNoSuchEntity`, and the entity
under every other key is unchanged. -/
theorem delete_existing (s : Store) (e : entity) (p : PropertyList)
    (h : s.find e.addressed = some p) :
    (Datastore.Delete memory s e).1 = none
    ∧ (Datastore.Delete memory s e).2.2.find e.addressed = none
    ∧ (∀ e1 : entity, e1.addressed = e.addressed →
        (Datastore.Load memory (Datastore.Delete memory s e).2.2 e1).1
          = some Error.ErrNoSuchEntity)
    ∧ (∀ k : Key, k ≠ e.addressed →
        (Datastore.Delete memory s e).2.2.find k = s.find k) := by
  have hdel : Datastore.Delete memory s e
      = (none, (e.SetKey (some e.addressed)).load p, s.erase e.addressed) := by
    simp only [Datastore.Delete, Load_memory, h]
    simp [entity.HasKey, entity.load, entity.SetKey, entity.Key, memory,
      Store.Delete]
  rw [hdel]
  refine ⟨rfl, find_erase_self s _, ?_, ?_⟩
  · intro e1 h1
    simp [Load_memory, h1, find_erase_self]
  · intro k hk
    exact find_erase_of_ne s _ k hk

/-- C9 at the store holding Diego: deleting `Person` with `Name = Diego`
empties the key. -/
theorem delete_existing_witness :
    (Datastore.Delete memory diegoStored (Person "Diego" "")).1 = none
    ∧ (Datastore.Delete memory diegoStored (Person "Diego" "")).2.2.find
        (Key.root "Person" "Diego" 0) = none :=
  ⟨(delete_existing diegoStored (Person "Diego" "")
      (Person "Diego" "Brazil").save (by decide)).1,
   (delete_existing diegoStored (Person "Diego" "")
      (Person "Diego" "Brazil").save (by decide)).2.1⟩

/-! ## The parent requirement -/

theorem splitChars_append_sep (sep : Char) (k r : List Char) (h : sep ∉ k) :
    strings.splitChars sep (k ++ sep :: r) = k :: strings.splitChars sep r := by
  induction k with
  | nil => simp [strings.splitChars]
  | cons c cs ih =>
    have hc : c ≠ sep := fun hc => h (by simp [hc])
    have hcs : sep ∉ cs := fun hcs => h (by simp [hcs])
    simp [strings.splitChars, hc, ih hcs]

theorem Split_hasparent (K : String) (h : ',' ∉ K.data) :
    strings.Split (K ++ ",hasparent") ',' = [K, "hasparent"] := by
  have hd : (K ++ ",hasparent").data = K.data ++ ',' :: "hasparent".data := by
    rw [String.data_append]
  have hs : strings.splitChars ',' "hasparent".data = ["hasparent".data] := by
    decide
  simp only [strings.Split, hd, splitChars_append_sep ',' _ _ h, hs]
  rfl

theorem TrimSpace_hasparent : strings.TrimSpace "hasparent" = "hasparent" := by
  decide

theorem kindLoop_of_hasparent (e : entity) (this : KeyResolver) (m : Field)
    (K : String) (fields : List Field)
    (hm : fields.find? (fun f => f.typeName == "Model") = some m)
    (htag : m.tag = K ++ ",hasparent")
    (hcomma : ',' ∉ K.data) (hblank : strings.TrimSpace K ≠ "") :
    KeyResolver.ExtractKindMetadata.loop e fields this
      = if e.parentKey = none then
          (some Error.ErrMissingParentKey,
            { this with Kind := K, HasParent := true })
        else (none, { this with Kind := K, HasParent := true }) := by
  induction fields with
  | nil => simp at hm
  | cons f rest ih =>
    by_cases hf : f.typeName = "Model"
    · have hfm : f = m := by simpa [List.find?_cons, hf] using hm
      subst hfm
      have hne : K ++ ",hasparent" ≠ "" := by
        intro h0
        have := congrArg String.length h0
        simp only [String.length_append] at this
        have h9 : ",hasparent".length = 10 := by decide
        have h00 : "".length = 0 := by decide
        omega
      by_cases hp : e.parentKey = none
      · simp [KeyResolver.ExtractKindMetadata.loop, hf, hne, htag,
          Split_hasparent K hcomma, hblank, TrimSpace_hasparent, entity.Parent,
          hp]
      · simp [KeyResolver.ExtractKindMetadata.loop, hf, hne, htag,
          Split_hasparent K hcomma, hblank, TrimSpace_hasparent, entity.Parent,
          hp]
    · have hrest : rest.find? (fun f => f.typeName == "Model") = some m := by
        simpa [List.find?_cons, hf] using hm
      simp [KeyResolver.ExtractKindMetadata.loop, hf, ih hrest]

theorem keyLoop_cases (fields : List Field) (this : KeyResolver) :
    ((KeyResolver.ExtractKeyMetadata.loop fields this).1 = none
      ∨ (KeyResolver.ExtractKeyMetadata.loop fields this).1
          = some Error.ErrMissingStringId
      ∨ (KeyResolver.ExtractKeyMetadata.loop fields this).1
          = some Error.ErrMissingIntId)
    ∧ (KeyResolver.ExtractKeyMetadata.loop fields this).2.Kind = this.Kind
    ∧ (KeyResolver.ExtractKeyMetadata.loop fields this).2.HasParent
        = this.HasParent
    ∧ (KeyResolver.ExtractKeyMetadata.loop fields this).2.Parent
        = this.Parent := by
  rw [keyLoop_eq]
  rcases fields.find? Field.isKeyField with _ | f
  · simp
  · by_cases hk : f.kind = reflect.Kind.String
    · by_cases hv : f.value.String = "" <;> simp [hk, hv]
    · by_cases hv : f.value.Int = 0 <;> simp [hk, hv]

theorem kindLoop_error (e : entity) (fields : List Field) (this : KeyResolver) :
    (KeyResolver.ExtractKindMetadata.loop e fields this).1 = none
    ∨ (KeyResolver.ExtractKindMetadata.loop e fields this).1
        = some Error.ErrMissingParentKey := by
  induction fields with
  | nil => simp [KeyResolver.ExtractKindMetadata.loop]
  | cons g rest ih =>
    simp only [KeyResolver.ExtractKindMetadata.loop]
    split_ifs <;> simp [ih]

theorem Resolve_of_kind_error (this this1 : KeyResolver) (e : entity)
    (err : Error) (hkey : e.key = none)
    (hk : this.ExtractKindMetadata e = (some err, this1)) :
    this.Resolve e = (some err, this1, e) := by
  simp [KeyResolver.Resolve, entity.Key, hkey, KeyResolver.ExtractMetadataFrom,
    hk]

theorem Resolve_of_kind_ok (this this1 : KeyResolver) (e : entity)
    (hkey : e.key = none) (hk : this.ExtractKindMetadata e = (none, this1)) :
    this.Resolve e
      = match KeyResolver.ExtractKeyMetadata.loop e.fields
          { this1 with Parent := e.parentKey } with
        | (some err, this2) => (some err, this2, e)
        | (none, this2) =>
          (none, this2,
            e.SetKey (some (datastore.NewKey this2.Kind this2.StringID
              this2.IntID this2.Parent))) := by
  simp only [KeyResolver.Resolve, entity.Key, hkey,
    KeyResolver.ExtractMetadataFrom, hk, KeyResolver.ExtractKeyMetadata,
    entity.Parent]
  rcases KeyResolver.ExtractKeyMetadata.loop e.fields
    { this1 with Parent := e.parentKey } with ⟨_ | err, this2⟩ <;> rfl

theorem Resolve_Kind (this : KeyResolver) (e : entity) (hkey : e.key = none) :
    (this.Resolve e).2.1.Kind = (this.ExtractKindMetadata e).2.Kind := by
  rcases hk : this.ExtractKindMetadata e with ⟨_ | err, this1⟩
  · rw [Resolve_of_kind_ok this this1 e hkey hk]
    obtain ⟨-, h2, -, -⟩ := keyLoop_cases e.fields
      { this1 with Parent := e.parentKey }
    rcases hl : KeyResolver.ExtractKeyMetadata.loop e.fields
      { this1 with Parent := e.parentKey } with ⟨_ | err, this2⟩ <;>
      simpa [hl] using h2
  · rw [Resolve_of_kind_error this this1 e err hkey hk]

/-- C11 as stated fails: the record `Comment`, whose kind annotation is
`Foo,hasparent`, with a parent set and its identifier `Name` empty, has no
key and `Resolve` fails on it (with `ErrMissingStringId`). -/
theorem resolve_hasparent_missing_id :
    (Comment "" (some (Key.root "Post" "p" 0))).key = none
    ∧ (Comment "" (some (Key.root "Post" "p" 0))).modelSlot
        = some (embeddedModel "Foo,hasparent")
    ∧ (Comment "" (some (Key.root "Post" "p" 0))).Parent
        = some (Key.root "Post" "p" 0)
    ∧ (NewKeyResolver.Resolve (Comment "" (some (Key.root "Post" "p" 0)))).1
        = some Error.ErrMissingStringId := by
  decide

/-- C11, amended: for a record without a key whose kind annotation is
`K,hasparent` (`K` a kind name, as `Foo`): if the parent is unset, `Resolve`
fails with `ErrMissingParentKey`; if a parent is set, `Resolve` does not fail
with `ErrMissingParentKey` (it succeeds or reports a missing identifier), the
resulting `Kind` is `K`, `HasParent` is true and, when it succeeds, the parent
of the attached key is the record's parent. -/
theorem resolve_hasparent (this : KeyResolver) (e : entity) (K : String)
    (m : Field) (hkey : e.key = none) (hm : e.modelSlot = some m)
    (htag : m.tag = K ++ ",hasparent")
    (hcomma : ',' ∉ K.data) (hblank : strings.TrimSpace K ≠ "") :
    (e.Parent = none → (this.Resolve e).1 = some Error.ErrMissingParentKey)
    ∧ (e.Parent ≠ none →
        ((this.Resolve e).1 = none
          ∨ (this.Resolve e).1 = some Error.ErrMissingStringId
          ∨ (this.Resolve e).1 = some Error.ErrMissingIntId)
        ∧ (this.Resolve e).2.1.Kind = K
        ∧ (this.Resolve e).2.1.HasParent = true
        ∧ ((this.Resolve e).1 = none →
            ∃ k, (this.Resolve e).2.2.key = some k ∧ k.Parent = e.Parent
              ∧ k.Kind = K)) := by
  have hloop := kindLoop_of_hasparent e { this with Kind := e.typeName } m K
    e.fields hm htag hcomma hblank
  constructor
  · intro hp
    have hk : this.ExtractKindMetadata e
        = (some Error.ErrMissingParentKey,
            { this with Kind := K, HasParent := true }) := by
      simp only [entity.Parent] at hp
      simpa [KeyResolver.ExtractKindMetadata, hp] using hloop
    rw [Resolve_of_kind_error this _ e _ hkey hk]
  · intro hp
    have hk : this.ExtractKindMetadata e
        = (none, { this with Kind := K, HasParent := true }) := by
      simp only [entity.Parent] at hp
      simpa [KeyResolver.ExtractKindMetadata, hp] using hloop
    rw [Resolve_of_kind_ok this _ e hkey hk]
    obtain ⟨h1, h2, h3, h4⟩ := keyLoop_cases e.fields
      { Kind := K, StringID := this.StringID, IntID := this.IntID,
        HasParent := true, Parent := e.parentKey }
    rcases hl : KeyResolver.ExtractKeyMetadata.loop e.fields
      { Kind := K, StringID := this.StringID, IntID := this.IntID,
        HasParent := true, Parent := e.parentKey } with ⟨_ | err, this2⟩
    · rw [hl] at h1 h2 h3 h4
      simp only at h2 h3 h4
      simp [h2, h3, h4, entity.SetKey, entity.Parent]
    · rw [hl] at h1 h2 h3 h4
      simp only at h1 h2 h3 h4
      simp [h2, h3]
      simpa using h1

/-- C11, amended, at `Comment` (kind annotation `Foo,hasparent`): without a
parent `Resolve` fails with `ErrMissingParentKey`; with a parent the resulting
`Kind` is `Foo`. -/
theorem resolve_hasparent_witness :
    (NewKeyResolver.Resolve (Comment "first" none)).1
      = some Error.ErrMissingParentKey
    ∧ (NewKeyResolver.Resolve
        (Comment "first" (some (Key.root "Post" "p" 0)))).2.1.Kind = "Foo" :=
  ⟨(resolve_hasparent NewKeyResolver (Comment "first" none) "Foo"
      (embeddedModel "Foo,hasparent") rfl rfl rfl (by decide) (by decide)).1
      rfl,
   ((resolve_hasparent NewKeyResolver
      (Comment "first" (some (Key.root "Post" "p" 0))) "Foo"
      (embeddedModel "Foo,hasparent") rfl rfl rfl (by decide) (by decide)).2
      (by decide)).2.1⟩

/-! ## Reading back a key -/

/-- C12: for a record that carries a key, `Resolve` returns no error whatever
the fields and annotations of the record are, sets `Kind`, `StringID`, `IntID`
and `Parent` to the components of the key and `HasParent` to whether the key
has a parent, and leaves the record, its key included, unchanged. -/
theorem resolve_read_back (this : KeyResolver) (e : entity) (k : Key)
    (h : e.Key = some k) :
    this.Resolve e
      = (none,
         { Kind := k.Kind, StringID := k.StringID, IntID := k.IntID,
           HasParent := k.Parent.isSome, Parent := k.Parent },
         e) := by
  simp [KeyResolver.Resolve, h, bne_none_eq_isSome]

/-- C12 at `Comment` (kind annotation `Foo,hasparent`) with an empty
identifier and no parent, carrying a key of another kind. -/
theorem resolve_read_back_witness :
    NewKeyResolver.Resolve
        ((Comment "" none).SetKey (some (Key.root "Stored" "" 7)))
      = (none,
         { Kind := "Stored", StringID := "", IntID := 7, HasParent := false,
           Parent := none },
         (Comment "" none).SetKey (some (Key.root "Stored" "" 7))) :=
  resolve_read_back NewKeyResolver
    ((Comment "" none).SetKey (some (Key.root "Stored" "" 7)))
    (Key.root "Stored" "" 7) rfl

/-! ## Kind resolution -/

/-- C16: when the model slot of a record carries the annotation `K` or
`K,hasparent` (`K` a kind name), kind resolution sets `Kind` to exactly `K`,
and so does `Resolve` on the record without a key; when no model slot carries
an annotation, the `Kind` is the record's own type name. -/
theorem kind_resolution (this : KeyResolver) (e : entity) :
    (∀ (K : String) (m : Field), e.modelSlot = some m →
      ',' ∉ K.data → strings.TrimSpace K ≠ "" →
      (m.tag = K ∨ m.tag = K ++ ",hasparent") →
      (this.ExtractKindMetadata e).2.Kind = K
      ∧ (e.key = none → (this.Resolve e).2.1.Kind = K))
    ∧ ((∀ f ∈ e.fields, f.typeName = "Model" → f.tag = "") →
      (this.ExtractKindMetadata e).2.Kind = e.typeName
      ∧ (e.key = none → (this.Resolve e).2.1.Kind = e.typeName)) := by
  constructor
  · intro K m hm hcomma hblank htag
    have hK : (this.ExtractKindMetadata e).2.Kind = K := by
      rcases htag with htag | htag
      · subst htag
        simp [KeyResolver.ExtractKindMetadata,
          kindLoop_of_modelSlot e _ m e.fields hm hcomma hblank]
      · rw [KeyResolver.ExtractKindMetadata,
          kindLoop_of_hasparent e _ m K e.fields hm htag hcomma hblank]
        split_ifs <;> rfl
    exact ⟨hK, fun hkey => (Resolve_Kind this e hkey).trans hK⟩
  · intro hno
    have hK : (this.ExtractKindMetadata e).2.Kind = e.typeName := by
      simp [KeyResolver.ExtractKindMetadata,
        kindLoop_of_no_annotation e e.fields _ hno]
    exact ⟨hK, fun hkey => (Resolve_Kind this e hkey).trans hK⟩

/-- C16 at the records of the kind tests: the annotation `Tags` gives the kind
`Tags`, the type `Tag` without annotation gives the kind `Tag`. -/
theorem kind_resolution_witness :
    (NewKeyResolver.Resolve (TaggedTag "go")).2.1.Kind = "Tags"
    ∧ (NewKeyResolver.Resolve (Tag "go")).2.1.Kind = "Tag" :=
  ⟨((kind_resolution NewKeyResolver (TaggedTag "go")).1 "Tags"
      (embeddedModel "Tags") rfl (by decide) (by decide) (Or.inl rfl)).2 rfl,
   ((kind_resolution NewKeyResolver (Tag "go")).2 (by decide)).2 rfl⟩

/-! ## Failure leaves the record without a key -/

/-- C19: for a record without a key, an error of `Resolve` is one of
`ErrMissingParentKey`, `ErrMissingStringId`, `ErrMissingIntId` and the record
is left as it was, without a key; and when kind resolution reports the missing
parent, `Resolve` reports `ErrMissingParentKey` whatever the identifier field
holds. -/
theorem resolve_error_atomic (this : KeyResolver) (e : entity)
    (hkey : e.key = none) :
    (∀ err, (this.Resolve e).1 = some err →
      (err = Error.ErrMissingParentKey ∨ err = Error.ErrMissingStringId
        ∨ err = Error.ErrMissingIntId)
      ∧ (this.Resolve e).2.2 = e
      ∧ (this.Resolve e).2.2.HasKey = false)
    ∧ ((this.ExtractKindMetadata e).1 = some Error.ErrMissingParentKey →
      (this.Resolve e).1 = some Error.ErrMissingParentKey) := by
  have hnokey : e.HasKey = false := by simp [entity.HasKey, hkey]
  rcases hk : this.ExtractKindMetadata e with ⟨_ | err1, this1⟩
  · rw [Resolve_of_kind_ok this this1 e hkey hk]
    obtain ⟨h1, -⟩ := keyLoop_cases e.fields { this1 with Parent := e.parentKey }
    rcases hl : KeyResolver.ExtractKeyMetadata.loop e.fields
      { this1 with Parent := e.parentKey } with ⟨_ | err2, this2⟩
    · simp
    · rw [hl] at h1
      simp only [reduceCtorEq, Option.some.injEq, false_or] at h1
      refine ⟨?_, by simp⟩
      intro err herr
      simp only [Option.some.injEq] at herr
      subst herr
      exact ⟨Or.inr h1, rfl, hnokey⟩
  · rw [Resolve_of_kind_error this this1 e err1 hkey hk]
    have h1 := kindLoop_error e e.fields { this with Kind := e.typeName }
    have hk2 : KeyResolver.ExtractKindMetadata.loop e e.fields
        { this with Kind := e.typeName } = (some err1, this1) := hk
    rw [hk2] at h1
    simp only [reduceCtorEq, Option.some.injEq, false_or] at h1
    subst h1
    refine ⟨?_, by simp⟩
    intro err herr
    simp only [Option.some.injEq] at herr
    subst herr
    exact ⟨Or.inl rfl, rfl, hnokey⟩

/-- C19 at `Comment` (kind annotation `Foo,hasparent`) with no parent and an
empty identifier, where both errors apply: the missing parent is reported and
the record has no key. -/
theorem resolve_error_atomic_witness :
    (NewKeyResolver.Resolve (Comment "" none)).1
      = some Error.ErrMissingParentKey
    ∧ (NewKeyResolver.Resolve (Comment "" none)).2.2.HasKey = false :=
  ⟨(resolve_error_atomic NewKeyResolver (Comment "" none) rfl).2 (by decide),
   ((resolve_error_atomic NewKeyResolver (Comment "" none) rfl).1
      Error.ErrMissingParentKey (by decide)).2.2⟩

/-! ## The state of the resolver -/

theorem kindLoop_error_independent (e : entity) (fields : List Field)
    (this that : KeyResolver) :
    (KeyResolver.ExtractKindMetadata.loop e fields this).1
      = (KeyResolver.ExtractKindMetadata.loop e fields that).1 := by
  induction fields with
  | nil => rfl
  | cons g rest ih =>
    simp only [KeyResolver.ExtractKindMetadata.loop]
    split_ifs <;> simp [ih]

theorem keyLoop_error_independent (fields : List Field)
    (this that : KeyResolver) :
    (KeyResolver.ExtractKeyMetadata.loop fields this).1
      = (KeyResolver.ExtractKeyMetadata.loop fields that).1 := by
  rw [keyLoop_eq, keyLoop_eq]
  rcases fields.find? Field.isKeyField with _ | f
  · rfl
  · by_cases hk : f.kind = reflect.Kind.String
    · by_cases hv : f.value.String = "" <;> simp [hk, hv]
    · by_cases hv : f.value.Int = 0 <;> simp [hk, hv]

theorem Resolve_error_independent (this that : KeyResolver) (e : entity) :
    (this.Resolve e).1 = (that.Resolve e).1 := by
  rcases hkey : e.key with _ | k
  · have h0 := kindLoop_error_independent e e.fields
      { this with Kind := e.typeName } { that with Kind := e.typeName }
    rcases hk1 : this.ExtractKindMetadata e with ⟨err1, this1⟩
    rcases hk2 : that.ExtractKindMetadata e with ⟨err2, that1⟩
    have herr : err1 = err2 := by
      have h1 : (this.ExtractKindMetadata e).1
          = (that.ExtractKindMetadata e).1 := h0
      rw [hk1, hk2] at h1
      exact h1
    subst herr
    cases err1 with
    | some err =>
      rw [Resolve_of_kind_error this this1 e err hkey hk1,
        Resolve_of_kind_error that that1 e err hkey hk2]
    | none =>
      rw [Resolve_of_kind_ok this this1 e hkey hk1,
        Resolve_of_kind_ok that that1 e hkey hk2]
      have h1 := keyLoop_error_independent e.fields
        { this1 with Parent := e.parentKey } { that1 with Parent := e.parentKey }
      rcases hl1 : KeyResolver.ExtractKeyMetadata.loop e.fields
        { this1 with Parent := e.parentKey } with ⟨_ | e1, r1⟩ <;>
      rcases hl2 : KeyResolver.ExtractKeyMetadata.loop e.fields
        { that1 with Parent := e.parentKey } with ⟨_ | e2, r2⟩ <;>
      simp_all
  · simp [KeyResolver.Resolve, entity.Key, hkey]

/-- C13, the code at a failing input: a resolver that has resolved `Tag` with
`Name = golang` keeps `StringID = golang`; resolving with it the record
`Note`, which has no key and no identifier-annotated field, returns no error,
ends with `StringID = golang` and attaches a key with that string id, while a
new resolver ends with `StringID` empty and attaches the key without id. -/
theorem resolve_keeps_stale_identifier :
    (Note "todo").key = none
    ∧ (Note "todo").idField = none
    ∧ (NewKeyResolver.Resolve (Tag "golang")).2.1.StringID = "golang"
    ∧ ((NewKeyResolver.Resolve (Tag "golang")).2.1.Resolve (Note "todo")).1
        = none
    ∧ ((NewKeyResolver.Resolve (Tag "golang")).2.1.Resolve
        (Note "todo")).2.1.StringID = "golang"
    ∧ ((NewKeyResolver.Resolve (Tag "golang")).2.1.Resolve
        (Note "todo")).2.2.key = some (Key.root "Note" "golang" 0)
    ∧ (NewKeyResolver.Resolve (Note "todo")).2.1.StringID = ""
    ∧ (NewKeyResolver.Resolve (Note "todo")).2.2.key
        = some (Key.root "Note" "" 0) := by
  decide

/-! ## Several identifier annotations -/

/-- C14, the code at a failing input: the records `Ticket` agree on their
first identifier-annotated field (`Serial`, of type `uint64`, holding 7) and
differ in the second one (`Name`); the identifier outcome of `Resolve` follows
the second: `StringID` is `a`, then `b`, then `ErrMissingStringId`; the key
`NewKeyFor` derives follows it too. -/
theorem resolve_follows_later_identifier :
    (Ticket 7 "a").idField = (Ticket 7 "b").idField
    ∧ (Ticket 7 "a").idField = (Ticket 7 "").idField
    ∧ (∃ f, (Ticket 7 "a").idField = some f ∧ f.name = "Serial")
    ∧ (NewKeyResolver.Resolve (Ticket 7 "a")).1 = none
    ∧ (NewKeyResolver.Resolve (Ticket 7 "a")).2.1.StringID = "a"
    ∧ (NewKeyResolver.Resolve (Ticket 7 "b")).1 = none
    ∧ (NewKeyResolver.Resolve (Ticket 7 "b")).2.1.StringID = "b"
    ∧ (NewKeyResolver.Resolve (Ticket 7 "")).1 = some Error.ErrMissingStringId
    ∧ Datastore.NewKeyFor (Ticket 7 "a") = Key.root "Ticket" "a" 0
    ∧ Datastore.NewKeyFor (Ticket 7 "b") = Key.root "Ticket" "b" 0 :=
  ⟨by decide, by decide, ⟨_, rfl, rfl⟩, by decide, by decide, by decide,
    by decide, by decide, by decide, by decide⟩

/-! ## Auto-generated keys -/

theorem Resolve_new_ok (e : entity) (hkey : e.key = none)
    (hok : (NewKeyResolver.Resolve e).1 = none) :
    ∃ this2 : KeyResolver,
      NewKeyResolver.Resolve e
        = (none, this2,
            e.SetKey (some (datastore.NewKey this2.Kind this2.StringID
              this2.IntID this2.Parent)))
      ∧ (this2.IsAutoGenerated = true ↔ e.keyField = none) := by
  rcases hk : NewKeyResolver.ExtractKindMetadata e with ⟨_ | err, this1⟩
  · obtain ⟨hs, hi, -⟩ := kindLoop_preserves e e.fields
      { NewKeyResolver with Kind := e.typeName }
    have hk2 : KeyResolver.ExtractKindMetadata.loop e e.fields
        { NewKeyResolver with Kind := e.typeName } = (none, this1) := hk
    rw [hk2] at hs hi
    simp only [NewKeyResolver] at hs hi
    rw [Resolve_of_kind_ok NewKeyResolver this1 e hkey hk] at hok ⊢
    rw [keyLoop_eq] at hok ⊢
    simp only [entity.keyField]
    rcases hfind : e.fields.find? Field.isKeyField with _ | f
    · exact ⟨_, rfl, by simp [KeyResolver.IsAutoGenerated, hs, hi]⟩
    · simp only [hfind] at hok
      by_cases hkS : f.kind = reflect.Kind.String
      · by_cases hv : f.value.String = ""
        · simp [hkS, hv] at hok
        · simp only [hkS, hv, if_true, if_false]
          exact ⟨_, rfl, by simp [KeyResolver.IsAutoGenerated, hv]⟩
      · by_cases hv : f.value.Int = 0
        · simp [hkS, hv] at hok
        · simp only [hkS, hv, if_false]
          exact ⟨_, rfl, by simp [KeyResolver.IsAutoGenerated, hv]⟩
  · rw [Resolve_of_kind_error NewKeyResolver this1 e err hkey hk] at hok
    simp at hok

/-- C15 as stated fails: the record `Counter` with `N = 5` has no key and an
identifier-annotated field (of type `uint`); `Resolve` on a new resolver
succeeds and `IsAutoGenerated` is true. -/
theorem autogenerated_with_identifier :
    (Counter 5).key = none
    ∧ (Counter 5).fields.all Field.wellTyped = true
    ∧ (∃ f, (Counter 5).idField = some f)
    ∧ (NewKeyResolver.Resolve (Counter 5)).1 = none
    ∧ (NewKeyResolver.Resolve (Counter 5)).2.1.IsAutoGenerated = true :=
  ⟨rfl, by decide, ⟨_, rfl⟩, by decide, by decide⟩

/-- C15, amended: `IsAutoGenerated` is true iff `StringID` is empty and
`IntID` is zero; for a record without a key, with at most one
identifier-annotated field, on which `Resolve` (new resolver) succeeds,
`IsAutoGenerated` is true exactly when the record has no identifier-annotated
field that is a string or a signed integer; and for a record with no
identifier annotation it is true again after a second resolution. -/
theorem autogenerated_iff (e : entity) (hkey : e.key = none)
    (hone : e.idFields.length ≤ 1)
    (hok : (NewKeyResolver.Resolve e).1 = none) :
    (∀ r : KeyResolver,
      r.IsAutoGenerated = true ↔ r.StringID = "" ∧ r.IntID = 0)
    ∧ ((NewKeyResolver.Resolve e).2.1.IsAutoGenerated = true ↔
      ∀ f, e.idField = some f →
        f.kind ≠ reflect.Kind.String ∧ isSignedInt f.kind = false)
    ∧ (e.idField = none → ∀ that : KeyResolver,
      (that.Resolve (NewKeyResolver.Resolve e).2.2).2.1.IsAutoGenerated
        = true) := by
  obtain ⟨this2, hres, hauto⟩ := Resolve_new_ok e hkey hok
  have hkf := keyField_of_idFields_length_le_one e hone
  refine ⟨?_, ?_, ?_⟩
  · intro r
    simp [KeyResolver.IsAutoGenerated, and_comm]
  · rw [hres]
    simp only
    rw [hauto, hkf]
    rcases e.idField with _ | g
    · simp [Option.filter]
    · by_cases hk : g.kind = reflect.Kind.String
      · simp [Option.filter, hk]
      · cases hs : isSignedInt g.kind <;> simp [Option.filter, hk, hs]
  · intro hnone that
    have hkn : e.keyField = none := by
      rw [hkf, hnone]
      rfl
    have h2 := hauto.mpr hkn
    simp only [KeyResolver.IsAutoGenerated, Bool.and_eq_true, beq_iff_eq] at h2
    rw [hres]
    simp [KeyResolver.Resolve, entity.Key, entity.SetKey,
      KeyResolver.IsAutoGenerated, h2.1, h2.2]

/-- C15, amended, at `Note`, which has no identifier annotation: the key is
auto-generated after the first resolution and after the second. -/
theorem autogenerated_iff_witness :
    (NewKeyResolver.Resolve (Note "todo")).2.1.IsAutoGenerated = true
    ∧ (NewKeyResolver.Resolve
        (NewKeyResolver.Resolve (Note "todo")).2.2).2.1.IsAutoGenerated
        = true :=
  ⟨(autogenerated_iff (Note "todo") rfl (by decide) (by decide)).2.1.mpr
      (by decide),
   (autogenerated_iff (Note "todo") rfl (by decide) (by decide)).2.2 rfl
      NewKeyResolver⟩

/-! ## The query result binder -/

theorem EntityAt_natCast (slice : Collection) (refs : List Ref) (i : Nat)
    (hs : slice = Collection.slice refs ∨ slice = Collection.slicePtr refs) :
    EntityAt slice (i : Int) = refs[i]? := by
  rcases hs with rfl | rfl <;> simp [EntityAt]

theorem All_loop_spec (slice : Collection) (refs : List Ref)
    (hs : slice = Collection.slice refs ∨ slice = Collection.slicePtr refs)
    (hnd : refs.Nodup) (keys : List Key) :
    ∀ (i : Nat) (h : Heap), i + keys.length ≤ refs.length →
      ∃ h2, Querier.All.loop slice i keys h = some h2
        ∧ (∀ (j : Nat) (k : Key) (r : Ref), keys[j]? = some k →
            refs[i + j]? = some r → h2 r = (h r).SetKey (some k))
        ∧ (∀ r : Ref, (∀ j : Nat, j < keys.length → refs[i + j]? ≠ some r) →
            h2 r = h r) := by
  induction keys with
  | nil =>
    intro i h _
    exact ⟨h, rfl, by simp, fun _ _ => rfl⟩
  | cons key rest ih =>
    intro i h hlen
    simp only [List.length_cons] at hlen
    have hi : i < refs.length := by omega
    obtain ⟨h2, hloop, hA, hB⟩ := ih (i + 1)
      (h.set refs[i] ((h refs[i]).SetKey (some key))) (by omega)
    have hne : ∀ j : Nat, j < rest.length →
        refs[i + 1 + j]? ≠ some refs[i] := by
      intro j hj heq
      have h1 := (List.nodup_iff_getElem?_ne_getElem?.mp hnd) i (i + 1 + j)
        (by omega) (by omega)
      rw [heq, List.getElem?_eq_getElem hi] at h1
      exact h1 rfl
    refine ⟨h2, ?_, ?_, ?_⟩
    · simp only [Querier.All.loop, EntityAt_natCast slice refs i hs,
        List.getElem?_eq_getElem hi]
      exact hloop
    · intro j k r hk hr
      cases j with
      | zero =>
        simp only [List.getElem?_cons_zero, Option.some.injEq] at hk
        simp only [Nat.add_zero, List.getElem?_eq_getElem hi,
          Option.some.injEq] at hr
        subst hk hr
        rw [hB refs[i] hne]
        simp [Heap.set]
      | succ j1 =>
        simp only [List.getElem?_cons_succ] at hk
        have hj1 : j1 < rest.length := by
          by_contra hcon
          rw [List.getElem?_eq_none (by omega)] at hk
          cases hk
        have hr1 : refs[i + 1 + j1]? = some r := by
          rw [← hr]
          congr 1
          omega
        rw [hA j1 k r hk hr1]
        have hrne : r ≠ refs[i] := by
          intro heq
          exact hne j1 hj1 (heq ▸ hr1)
        simp [Heap.set, hrne]
    · intro r hr
      have hr0 : r ≠ refs[i] := by
        intro heq
        have := hr 0 (by simp)
        simp only [Nat.add_zero, List.getElem?_eq_getElem hi] at this
        exact this (by rw [heq])
      rw [hB r]
      · simp [Heap.set, hr0]
      · intro j hj heq
        apply hr (j + 1) (by simp; omega)
        rw [← heq]
        congr 1
        omega

/-- C17: when the bulk fetch returns the keys and no error, leaving a
collection (a slice or a pointer to a slice) of `n` distinct records and `n`
keys, `All` returns no error and afterwards the record at index `i` is the
record the fetch left there with the key `i` set, for every `i < n`; when the
bulk fetch returns an error, `All` returns that error and leaves the memory as
the fetch left it. -/
theorem all_binds_keys (this : Querier) (slice : Collection) (h : Heap) :
    (∀ (keys : List Key) (slice1 : Collection) (h1 : Heap) (refs : List Ref),
      this.q.GetAll slice h = (keys, none, slice1, h1) →
      (slice1 = Collection.slice refs ∨ slice1 = Collection.slicePtr refs) →
      refs.Nodup → keys.length = refs.length →
      ∃ h2, this.All slice h = some (none, slice1, h2)
        ∧ ∀ (i : Nat) (k : Key), keys[i]? = some k →
            ∃ r, EntityAt slice1 (i : Int) = some r
              ∧ h2 r = (h1 r).SetKey (some k)
              ∧ (h2 r).Key = some k)
    ∧ (∀ (keys : List Key) (err : Error) (slice1 : Collection) (h1 : Heap),
      this.q.GetAll slice h = (keys, some err, slice1, h1) →
      this.All slice h = some (some err, slice1, h1)) := by
  constructor
  · intro keys slice1 h1 refs hget hs hnd hlen
    obtain ⟨h2, hloop, hA, -⟩ := All_loop_spec slice1 refs hs hnd keys 0 h1
      (by omega)
    refine ⟨h2, by simp [Querier.All, hget, hloop], ?_⟩
    intro i k hk
    have hi : i < refs.length := by
      by_contra hcon
      rw [List.getElem?_eq_none (by omega)] at hk
      cases hk
    refine ⟨refs[i], ?_, ?_, ?_⟩
    · rw [EntityAt_natCast slice1 refs i hs, List.getElem?_eq_getElem hi]
    · exact hA i k refs[i] hk (by simp [List.getElem?_eq_getElem hi])
    · rw [hA i k refs[i] hk (by simp [List.getElem?_eq_getElem hi])]
      rfl
  · intro keys err slice1 h1 hget
    simp [Querier.All, hget]

/-- C17 at the collection of the querier tests, passed by pointer, and a bulk
fetch returning two keys: the record at index 0 carries the first key and the
record at index 1 the second. -/
theorem all_binds_keys_witness :
    ∃ h2, (Querier.mk (fetchTwo (Key.root "Person" "" 1)
        (Key.root "Person" "" 2))).All (Collection.slicePtr [0, 1]) peopleHeap
        = some (none, Collection.slicePtr [0, 1], h2)
      ∧ ∀ (i : Nat) (k : Key),
          [Key.root "Person" "" 1, Key.root "Person" "" 2][i]? = some k →
          ∃ r, EntityAt (Collection.slicePtr [0, 1]) (i : Int) = some r
            ∧ h2 r = (peopleHeap r).SetKey (some k)
            ∧ (h2 r).Key = some k :=
  (all_binds_keys (Querier.mk (fetchTwo (Key.root "Person" "" 1)
      (Key.root "Person" "" 2))) (Collection.slicePtr [0, 1]) peopleHeap).1
    [Key.root "Person" "" 1, Key.root "Person" "" 2]
    (Collection.slicePtr [0, 1]) peopleHeap [0, 1] rfl (Or.inr rfl)
    (by decide) rfl

/-- C18: for a slice of records and an index within its bounds, `EntityAt` of
the slice and `EntityAt` of a pointer to the slice both return the pointer
held at that position of the slice; for an argument that is neither a slice
nor a pointer to a slice `EntityAt` does not return. -/
theorem entityAt_position (s : List Ref) (i : Int) (h0 : 0 ≤ i)
    (h1 : i < s.length) :
    (∃ r, s[i.toNat]? = some r
      ∧ EntityAt (Collection.slice s) i = some r
      ∧ EntityAt (Collection.slicePtr s) i = some r)
    ∧ ∀ j : Int, EntityAt Collection.other j = none := by
  have hi : i.toNat < s.length := by omega
  refine ⟨⟨s[i.toNat], List.getElem?_eq_getElem hi, ?_, ?_⟩, fun _ => rfl⟩
  · simp [EntityAt, h0, List.getElem?_eq_getElem hi]
  · simp [EntityAt, h0, List.getElem?_eq_getElem hi]

/-- C18 at the collection of the querier tests: position 1 of the pointer to
the slice is `munjal`, position 0 of the slice is `diego`. -/
theorem entityAt_position_witness :
    EntityAt (Collection.slicePtr [0, 1]) 1 = some 1
    ∧ EntityAt (Collection.slice [0, 1]) 0 = some 0 :=
  ⟨by
    obtain ⟨⟨r, hr, -, h2⟩, -⟩ :=
      entityAt_position [0, 1] 1 (by decide) (by decide)
    cases hr
    exact h2,
   by
    obtain ⟨⟨r, hr, h2, -⟩, -⟩ :=
      entityAt_position [0, 1] 0 (by decide) (by decide)
    cases hr
    exact h2⟩

end db
